import Mathlib

/-!
# Verification of the tosijs-schema-form renderer/binder core

This file gives a shallow embedding of the core of the `tosijs-schema-form`
repository (the blueprint in `src/blueprint.ts`, which `src/schema-form.ts`
wraps with `makeComponent` per the repository's architecture notes) and proves
or refutes the frozen claims about it.

Modelling conventions:

* JavaScript numbers are modelled as finite decimals `Dec` (an integer
  mantissa with a base-10 negative exponent).  Every number the form code
  handles travels through the DOM as its decimal string (`String(n)`) and is
  recovered with `Number(s)` / `parseFloat(s)`; for finite decimals this
  round-trips exactly, which is the only property of the float↔string
  conversion the code relies on.  `String` of a float at extreme magnitudes
  (exponent notation) is outside the modelled range.
* JavaScript values are modelled by the inductive `JValue`; object property
  order is the JS insertion order.  Strict equality `===` on objects/arrays is
  reference equality; schema constants and form data are distinct allocations
  in the code paths modelled here, so the model makes `===` false on
  composites (documented at `jsStrictEq`).
* The DOM is modelled by the projection the data collector observes: the
  ordered list of bound controls (`input`/`select`/`textarea` elements with a
  `data-path` attribute and no `data-union`), each carrying its path string,
  optional declared `data-type`, and its string value (or checked state for
  checkboxes).  Rendering functions are transliterated from
  `renderField`/`renderObjectField`/`renderArrayField`/`renderArrayItem` in
  `src/blueprint.ts`, keeping exactly the controls the collector's query
  selects, in document order.
-/

namespace SchemaForm

/-! ## Digits -/

/-- The character for a decimal digit `d < 10`. -/
def digitChar (d : Nat) : Char := Char.ofNat (48 + d)

/-- Numeric value of a digit character. -/
def digitVal (c : Char) : Nat := c.toNat - 48

/-- Is `c` one of the characters `0`–`9`?  (Mirrors the regex class `\d`.) -/
def isDigitChar (c : Char) : Bool := 48 ≤ c.toNat && c.toNat ≤ 57

/-- Decimal digits of `n`, most significant first, accumulator form.  The
first argument is structural fuel (`n` itself is always enough). -/
def natDigitsGo : Nat → Nat → List Char → List Char
  | 0, n, acc => digitChar n :: acc
  | fuel + 1, n, acc =>
    if n < 10 then digitChar n :: acc
    else natDigitsGo fuel (n / 10) (digitChar (n % 10) :: acc)

/-- Decimal digits of `n`, most significant first (`"0"` for zero);
this is how `String(n)` renders a nonnegative integer. -/
def natDigits (n : Nat) : List Char := natDigitsGo n n []

theorem natDigitsGo_append {fuel n : Nat} (acc : List Char) (h : n ≤ fuel) :
    natDigitsGo fuel n acc = natDigitsGo fuel n [] ++ acc := by
  induction fuel generalizing n acc with
  | zero =>
    have hn : n = 0 := by omega
    subst hn
    rfl
  | succ fuel ih =>
    by_cases hn : n < 10
    · rw [natDigitsGo, if_pos hn, natDigitsGo, if_pos hn]
      rfl
    · have hlt : n / 10 < n := Nat.div_lt_self (by omega) (by omega)
      have h10 : n / 10 ≤ fuel := by omega
      rw [natDigitsGo, if_neg hn, natDigitsGo, if_neg hn,
        ih _ h10, ih [digitChar (n % 10)] h10]
      simp

theorem natDigitsGo_irrel : ∀ (f1 f2 n : Nat) (acc : List Char), n ≤ f1 → n ≤ f2 →
    natDigitsGo f1 n acc = natDigitsGo f2 n acc := by
  intro f1
  induction f1 with
  | zero =>
    intro f2 n acc h1 h2
    have hn : n = 0 := by omega
    subst hn
    cases f2 with
    | zero => rfl
    | succ f => simp [natDigitsGo]
  | succ f1 ih =>
    intro f2 n acc h1 h2
    cases f2 with
    | zero =>
      have hn : n = 0 := by omega
      subst hn
      simp [natDigitsGo]
    | succ f2 =>
      by_cases hn : n < 10
      · rw [natDigitsGo, if_pos hn, natDigitsGo, if_pos hn]
      · have hlt : n / 10 < n := Nat.div_lt_self (by omega) (by omega)
        rw [natDigitsGo, if_neg hn, natDigitsGo, if_neg hn]
        exact ih f2 (n / 10) _ (by omega) (by omega)

theorem natDigitsGo_fuel {fuel n : Nat} (acc : List Char) (h : n ≤ fuel) :
    natDigitsGo fuel n acc = natDigits n ++ acc := by
  rw [natDigitsGo_append acc h, natDigits, natDigitsGo_irrel fuel n n [] h (Nat.le_refl n)]

theorem natDigits_ge (n : Nat) (h : ¬ n < 10) :
    natDigits n = natDigits (n / 10) ++ [digitChar (n % 10)] := by
  rw [natDigits]
  cases n with
  | zero => omega
  | succ m =>
    rw [natDigitsGo, if_neg h]
    have hlt : (m + 1) / 10 < m + 1 := Nat.div_lt_self (by omega) (by omega)
    exact natDigitsGo_fuel _ (by omega)

/-- Value of a digit string read left to right. -/
def digitsVal (ds : List Char) : Nat := ds.foldl (fun a c => a * 10 + digitVal c) 0

theorem digitVal_digitChar {d : Nat} (h : d < 10) : digitVal (digitChar d) = d := by
  interval_cases d <;> rfl

theorem isDigitChar_digitChar {d : Nat} (h : d < 10) : isDigitChar (digitChar d) = true := by
  interval_cases d <;> rfl

theorem digitsVal_append (xs ys : List Char) :
    digitsVal (xs ++ ys) = ys.foldl (fun a c => a * 10 + digitVal c) (digitsVal xs) := by
  simp [digitsVal, List.foldl_append]

theorem digitsVal_natDigits (n : Nat) : digitsVal (natDigits n) = n := by
  induction n using Nat.strong_induction_on with
  | _ n ih =>
    by_cases h : n < 10
    · have hd : natDigits n = [digitChar n] := by
        rw [natDigits]; cases n with
        | zero => rfl
        | succ m => rw [natDigitsGo, if_pos h]
      simp [hd, digitsVal, digitVal_digitChar h]
    · rw [natDigits_ge n h, digitsVal_append, ih (n / 10) (Nat.div_lt_self (by omega) (by omega))]
      simp only [List.foldl_cons, List.foldl_nil, digitVal_digitChar (Nat.mod_lt n (by omega))]
      omega

theorem natDigits_all_digits (n : Nat) : ∀ c ∈ natDigits n, isDigitChar c = true := by
  induction n using Nat.strong_induction_on with
  | _ n ih =>
    intro c hc
    by_cases h : n < 10
    · have hd : natDigits n = [digitChar n] := by
        rw [natDigits]; cases n with
        | zero => rfl
        | succ m => rw [natDigitsGo, if_pos h]
      rw [hd] at hc
      simp at hc
      subst hc; exact isDigitChar_digitChar h
    · rw [natDigits_ge n h] at hc
      rcases List.mem_append.mp hc with h1 | h1
      · exact ih (n / 10) (Nat.div_lt_self (by omega) (by omega)) c h1
      · simp at h1; subst h1
        exact isDigitChar_digitChar (Nat.mod_lt n (by omega))

theorem natDigits_ne_nil (n : Nat) : natDigits n ≠ [] := by
  by_cases h : n < 10
  · have hd : natDigits n = [digitChar n] := by
      rw [natDigits]; cases n with
      | zero => rfl
      | succ m => rw [natDigitsGo, if_pos h]
    simp [hd]
  · rw [natDigits_ge n h]; simp

theorem natDigits_length_le {n k : Nat} (hk : 0 < k) (h : n < 10 ^ k) :
    (natDigits n).length ≤ k := by
  induction k generalizing n with
  | zero => omega
  | succ k ihk =>
    by_cases hn : n < 10
    · have hd : natDigits n = [digitChar n] := by
        rw [natDigits]; cases n with
        | zero => rfl
        | succ m => rw [natDigitsGo, if_pos hn]
      simp [hd]
    · rw [natDigits_ge n hn]
      have hk0 : 0 < k := by
        by_contra hc
        have hk' : k = 0 := by omega
        subst hk'
        simp [pow_succ] at h
        omega
      have hdiv : n / 10 < 10 ^ k := by
        rw [Nat.div_lt_iff_lt_mul (by omega)]
        calc n < 10 ^ (k + 1) := h
        _ = 10 ^ k * 10 := by rw [pow_succ]
      have hlen := ihk hk0 hdiv
      simp only [List.length_append, List.length_cons, List.length_nil]
      omega

/-! ## Decimal numbers

`Dec` models a JS number as `m / 10 ^ e`.  Representatives are not
normalized; numeric equality is cross-multiplied equality of values. -/

structure Dec where
  m : Int
  e : Nat
  deriving DecidableEq, Repr

namespace Dec

/-- Rational value of a decimal. -/
def val (d : Dec) : ℚ := (d.m : ℚ) / ((10 : ℚ) ^ d.e)

/-- Numeric equality (`===` on two JS numbers): equality of values. -/
def numEq (a b : Dec) : Bool := a.m * (10 : Int) ^ b.e == b.m * (10 : Int) ^ a.e

/-- Numeric order, used for `Math.max`/`Math.min` clamping. -/
def numLe (a b : Dec) : Bool := a.m * (10 : Int) ^ b.e ≤ b.m * (10 : Int) ^ a.e

/-- `Number.isInteger`: the value is a mathematical integer. -/
def isInt (d : Dec) : Bool := d.m % (10 : Int) ^ d.e == 0

/-- An integer as a decimal. -/
def ofInt (n : Int) : Dec := ⟨n, 0⟩

/-- `Math.max` on decimals. -/
def dmax (a b : Dec) : Dec := if numLe a b then b else a

/-- `Math.min` on decimals. -/
def dmin (a b : Dec) : Dec := if numLe a b then a else b

theorem numEq_refl (a : Dec) : numEq a a = true := by simp [numEq]

end Dec

/-! ## Printing and parsing decimals

`decChars d` is the list of characters of `String(n)` for the represented
number (digits, optional sign and decimal point); `parseDecChars` is the
decimal-literal fragment of `Number(s)` / `parseFloat(s)`.  The only
property the form code relies on is that parsing a printed number yields the
number back, proved in `parseDec_printDec`. -/

/-- Digits of the unsigned part: mantissa digits with a decimal point inserted
`e` places from the right (zero-padding the fraction as needed). -/
def decCharsNat (n : Nat) (e : Nat) : List Char :=
  if e = 0 then natDigits n
  else
    let fd := natDigits (n % 10 ^ e)
    natDigits (n / 10 ^ e) ++ '.' :: (List.replicate (e - fd.length) '0' ++ fd)

/-- Characters of the decimal string of `d` (mirrors `String(n)` for the
finite decimals in the modelled range). -/
def decChars (d : Dec) : List Char :=
  if d.m < 0 then '-' :: decCharsNat d.m.natAbs d.e else decCharsNat d.m.natAbs d.e

/-- The string form of a `Dec`; the value a numeric DOM control holds. -/
def printDec (d : Dec) : String := String.mk (decChars d)

/-- Split a character list at the first `'.'`, if any. -/
def splitAtDot : List Char → Option (List Char × List Char)
  | [] => none
  | c :: cs =>
    if c = '.' then some ([], cs)
    else match splitAtDot cs with
      | some (l, r) => some (c :: l, r)
      | none => none

/-- Parse an unsigned decimal literal (`digits`, `digits.digits`,
`.digits` or `digits.`, at least one digit in total). -/
def parseUnsigned (cs : List Char) : Option Dec :=
  match splitAtDot cs with
  | none =>
    if cs ≠ [] ∧ cs.all isDigitChar then some ⟨digitsVal cs, 0⟩ else none
  | some (l, r) =>
    if (l ≠ [] ∨ r ≠ []) ∧ l.all isDigitChar ∧ r.all isDigitChar then
      some ⟨digitsVal l * 10 ^ r.length + digitsVal r, r.length⟩
    else none

/-- Parse a signed decimal literal: the fragment of JS `Number` semantics that
printed finite decimals exercise. -/
def parseDecChars (cs : List Char) : Option Dec :=
  match cs with
  | c :: rest =>
    if c = '-' then (parseUnsigned rest).map (fun d => ⟨-d.m, d.e⟩)
    else parseUnsigned (c :: rest)
  | [] => parseUnsigned []

/-- `Number(s)` on a decimal-literal string (`none` models `NaN`). -/
def parseDec (s : String) : Option Dec := parseDecChars s.data

theorem splitAtDot_of_no_dot {cs : List Char} (h : ∀ c ∈ cs, c ≠ '.') :
    splitAtDot cs = none := by
  induction cs with
  | nil => rfl
  | cons c cs ih =>
    have hc : c ≠ '.' := h c (by simp)
    rw [splitAtDot, if_neg hc, ih (fun x hx => h x (by simp [hx]))]

theorem splitAtDot_append_dot {l r : List Char} (h : ∀ c ∈ l, c ≠ '.') :
    splitAtDot (l ++ '.' :: r) = some (l, r) := by
  induction l with
  | nil => simp [splitAtDot]
  | cons c cs ih =>
    have hc : c ≠ '.' := h c (by simp)
    rw [List.cons_append, splitAtDot, if_neg hc, ih (fun x hx => h x (by simp [hx]))]

theorem digit_ne_dot {c : Char} (h : isDigitChar c = true) : c ≠ '.' := by
  intro hc; subst hc; simp [isDigitChar] at h

theorem digit_ne_minus {c : Char} (h : isDigitChar c = true) : c ≠ '-' := by
  intro hc; subst hc; simp [isDigitChar] at h

theorem digitsVal_replicate_zero (k : Nat) (ds : List Char) :
    digitsVal (List.replicate k '0' ++ ds) = digitsVal ds := by
  induction k with
  | zero => simp
  | succ k ih =>
    have : List.replicate (k + 1) '0' ++ ds = '0' :: (List.replicate k '0' ++ ds) := by
      simp [List.replicate_succ]
    rw [this]
    simp only [digitsVal, List.foldl_cons] at *
    have : digitVal '0' = 0 := rfl
    simpa [this] using ih

theorem decCharsNat_eq_of_pos (n : Nat) {e : Nat} (he : e ≠ 0) :
    decCharsNat n e = natDigits (n / 10 ^ e) ++
      '.' :: (List.replicate (e - (natDigits (n % 10 ^ e)).length) '0' ++
        natDigits (n % 10 ^ e)) := by
  rw [decCharsNat, if_neg he]

theorem parseUnsigned_decCharsNat (n e : Nat) :
    parseUnsigned (decCharsNat n e) = some ⟨n, e⟩ := by
  by_cases he : e = 0
  · subst he
    rw [decCharsNat, if_pos rfl]
    have hdots : ∀ c ∈ natDigits n, c ≠ '.' :=
      fun c hc => digit_ne_dot (natDigits_all_digits n c hc)
    simp only [parseUnsigned, splitAtDot_of_no_dot hdots]
    rw [if_pos ⟨natDigits_ne_nil n, by
      rw [List.all_eq_true]; exact fun c hc => natDigits_all_digits n c hc⟩]
    simp [digitsVal_natDigits]
  · rw [decCharsNat_eq_of_pos n he]
    have hfd : ∀ c ∈ natDigits (n % 10 ^ e), isDigitChar c = true :=
      natDigits_all_digits _
    have hid : ∀ c ∈ natDigits (n / 10 ^ e), isDigitChar c = true :=
      natDigits_all_digits _
    have hr : ∀ c ∈ List.replicate (e - (natDigits (n % 10 ^ e)).length) '0' ++
        natDigits (n % 10 ^ e), isDigitChar c = true := by
      intro c hc
      rcases List.mem_append.mp hc with h1 | h1
      · rw [List.eq_of_mem_replicate h1]; rfl
      · exact hfd c h1
    have hlen : (List.replicate (e - (natDigits (n % 10 ^ e)).length) '0' ++
        natDigits (n % 10 ^ e)).length = e := by
      have hmod : n % 10 ^ e < 10 ^ e := Nat.mod_lt n (Nat.pos_pow_of_pos e (by omega))
      have hle := natDigits_length_le (Nat.pos_of_ne_zero he) hmod
      simp only [List.length_append, List.length_replicate]
      omega
    simp only [parseUnsigned,
      splitAtDot_append_dot (fun c hc => digit_ne_dot (hid c hc))]
    rw [if_pos ⟨Or.inl (natDigits_ne_nil _), by
        rw [List.all_eq_true]
        exact hid, by
        rw [List.all_eq_true]
        exact hr⟩]
    rw [digitsVal_replicate_zero]
    simp only [hlen, digitsVal_natDigits, Option.some_inj, Dec.mk.injEq, and_true]
    exact_mod_cast Nat.div_add_mod' n (10 ^ e)

theorem decCharsNat_head_not_minus {n e : Nat} {c : Char} {cs : List Char}
    (hc : decCharsNat n e = c :: cs) : c ≠ '-' := by
  by_cases he : e = 0
  · subst he
    rw [decCharsNat, if_pos rfl] at hc
    refine digit_ne_minus (natDigits_all_digits n c ?_)
    rw [hc]
    exact List.mem_cons_self c cs
  · rw [decCharsNat_eq_of_pos n he] at hc
    rcases hd : natDigits (n / 10 ^ e) with _ | ⟨c0, cs0⟩
    · exact absurd hd (natDigits_ne_nil _)
    · rw [hd, List.cons_append] at hc
      have hcd : isDigitChar c0 = true := by
        refine natDigits_all_digits (n / 10 ^ e) c0 ?_
        rw [hd]
        exact List.mem_cons_self c0 cs0
      have hcc : c0 = c := (List.cons_eq_cons.mp hc).1
      rw [hcc] at hcd
      exact digit_ne_minus hcd

theorem decCharsNat_ne_nil (n e : Nat) : decCharsNat n e ≠ [] := by
  by_cases he : e = 0
  · subst he
    rw [decCharsNat, if_pos rfl]
    exact natDigits_ne_nil _
  · rw [decCharsNat_eq_of_pos n he]
    intro h
    rcases List.append_eq_nil.mp h with ⟨-, h2⟩
    exact List.cons_ne_nil _ _ h2

/-- Parsing a printed decimal returns the decimal: the `Number(String(n)) = n`
round trip the collector depends on. -/
theorem parseDec_printDec (d : Dec) : parseDec (printDec d) = some d := by
  rw [parseDec, printDec]
  show parseDecChars (decChars d) = some d
  rw [decChars]
  by_cases hm : d.m < 0
  · rw [if_pos hm]
    rw [parseDecChars, if_pos rfl, parseUnsigned_decCharsNat]
    show some (⟨-((d.m.natAbs : Int)), d.e⟩ : Dec) = some d
    have hmm : -((d.m.natAbs : Int)) = d.m := by omega
    rw [hmm]
  · rw [if_neg hm]
    rcases hck : decCharsNat d.m.natAbs d.e with _ | ⟨c, cs⟩
    · exact absurd hck (decCharsNat_ne_nil _ _)
    · rw [parseDecChars, if_neg (decCharsNat_head_not_minus hck), ← hck,
        parseUnsigned_decCharsNat]
      have hmm : ((d.m.natAbs : Int)) = d.m := by omega
      rw [hmm]

/-! ## JavaScript values -/

/-- A JavaScript value as the form code observes it: `null`, `undefined`,
booleans, finite numbers (`vNum`), `NaN`, strings, arrays and plain objects
(fields in insertion order). -/
inductive JValue where
  | vNull
  | vUndefined
  | vBool (b : Bool)
  | vNum (d : Dec)
  | vNaN
  | vStr (s : String)
  | vArr (elems : List JValue)
  | vObj (fields : List (String × JValue))
  deriving Repr

namespace JValue

/-- `v == null` (loose): `null` or `undefined`. -/
def isNullish : JValue → Bool
  | vNull => true
  | vUndefined => true
  | _ => false

/-- JS truthiness. -/
def truthy : JValue → Bool
  | vNull => false
  | vUndefined => false
  | vBool b => b
  | vNum d => d.m != 0
  | vNaN => false
  | vStr s => s ≠ ""
  | vArr _ => true
  | vObj _ => true

/-- `typeof v`. -/
def jsTypeOf : JValue → String
  | vNull => "object"
  | vUndefined => "undefined"
  | vBool _ => "boolean"
  | vNum _ => "number"
  | vNaN => "number"
  | vStr _ => "string"
  | vArr _ => "object"
  | vObj _ => "object"

/-- First binding of a key in an object's field list (JS objects cannot have
duplicate keys, so field lists are kept duplicate-free). -/
def lookupField : List (String × JValue) → String → Option JValue
  | [], _ => none
  | (k, v) :: rest, key => if k = key then some v else lookupField rest key

/-- Key presence (`key in obj`), true even for `undefined`-valued keys. -/
def hasKey (fields : List (String × JValue)) (key : String) : Bool :=
  (lookupField fields key).isSome

mutual

/-- `String(v)`.  For arrays, JS joins element strings with `","`, rendering
`null`/`undefined` elements as the empty string; objects stringify as
`"[object Object]"`. -/
def jsToStr : JValue → String
  | vNull => "null"
  | vUndefined => "undefined"
  | vBool b => if b then "true" else "false"
  | vNum d => printDec d
  | vNaN => "NaN"
  | vStr s => s
  | vArr xs => String.intercalate "," (jsToStrElems xs)
  | vObj _ => "[object Object]"
  termination_by structural x => x

def jsToStrElems : List JValue → List String
  | [] => []
  | vNull :: xs => "" :: jsToStrElems xs
  | vUndefined :: xs => "" :: jsToStrElems xs
  | x :: xs => jsToStr x :: jsToStrElems xs
  termination_by structural x => x

end

/-- Strict equality `===`.  On composites (objects/arrays) `===` is
reference equality; in every modelled code path the two sides come from
distinct allocations (schema literals versus form data), so the model
returns `false` for composites.  `NaN === NaN` is `false`. -/
def jsStrictEq : JValue → JValue → Bool
  | vNull, vNull => true
  | vUndefined, vUndefined => true
  | vBool a, vBool b => a == b
  | vNum a, vNum b => Dec.numEq a b
  | vStr a, vStr b => a == b
  | _, _ => false

end JValue

/-! ## Deep equality

`toEqual`-style deep equality: recursive, insensitive to object key order and
to `undefined`-valued keys, `NaN` equal to itself, numbers compared by value.
It is implemented by comparing canonical forms (`canon`): numbers normalized,
`undefined`-valued fields dropped, fields sorted by key. -/

/-- Canonical representative of a `Dec`: strip factors of ten.  The fuel
argument (`e` is always enough) keeps the recursion structural. -/
def normDecGo : Nat → Int → Nat → Dec
  | 0, m, e => if m = 0 then ⟨0, 0⟩ else ⟨m, e⟩
  | fuel + 1, m, e =>
    if m = 0 then ⟨0, 0⟩
    else if e = 0 then ⟨m, 0⟩
    else if m % 10 = 0 then normDecGo fuel (m / 10) (e - 1)
    else ⟨m, e⟩

/-- Canonical representative of a `Dec`: strip factors of ten. -/
def normDec (d : Dec) : Dec := normDecGo d.e d.m d.e

/-- Computable lexicographic comparison on character lists (the sort key
order for canonical forms; any total order works here). -/
def charListLe : List Char → List Char → Bool
  | [], _ => true
  | _ :: _, [] => false
  | a :: as, b :: bs =>
    if a.toNat < b.toNat then true
    else if b.toNat < a.toNat then false
    else charListLe as bs

/-- Key order for canonical field sorting. -/
def keyLe (a b : String) : Bool := charListLe a.data b.data

/-- Insert a field into a key-sorted field list. -/
def insertField (kv : String × JValue) : List (String × JValue) → List (String × JValue)
  | [] => [kv]
  | (k, v) :: rest =>
    if keyLe kv.1 k then kv :: (k, v) :: rest
    else (k, v) :: insertField kv rest

/-- Sort fields by key (insertion sort; stable, but inputs are
duplicate-free so stability is irrelevant). -/
def sortFields : List (String × JValue) → List (String × JValue)
  | [] => []
  | kv :: rest => insertField kv (sortFields rest)

mutual

/-- Canonical form of a value (see the section comment). -/
def canon : JValue → JValue
  | .vNull => .vNull
  | .vUndefined => .vUndefined
  | .vBool b => .vBool b
  | .vNum d => .vNum (normDec d)
  | .vNaN => .vNaN
  | .vStr s => .vStr s
  | .vArr xs => .vArr (canonElems xs)
  | .vObj fs => .vObj (sortFields (canonFields fs))
  termination_by structural x => x

def canonElems : List JValue → List JValue
  | [] => []
  | x :: xs => canon x :: canonElems xs
  termination_by structural x => x

/-- Canonicalize an object's fields, dropping `undefined`-valued keys. -/
def canonFields : List (String × JValue) → List (String × JValue)
  | [] => []
  | (k, v) :: rest =>
    match v with
    | .vUndefined => canonFields rest
    | v => (k, canon v) :: canonFields rest
  termination_by structural x => x

end

mutual

/-- Structural boolean equality of values (used only to decide equality of
canonical forms in concrete computations). -/
def jBeq : JValue → JValue → Bool
  | .vNull, .vNull => true
  | .vUndefined, .vUndefined => true
  | .vBool a, .vBool b => a == b
  | .vNum a, .vNum b => a == b
  | .vNaN, .vNaN => true
  | .vStr a, .vStr b => a == b
  | .vArr xs, .vArr ys => jBeqElems xs ys
  | .vObj fs, .vObj gs => jBeqFields fs gs
  | _, _ => false
  termination_by structural x => x

def jBeqElems : List JValue → List JValue → Bool
  | [], [] => true
  | x :: xs, y :: ys => jBeq x y && jBeqElems xs ys
  | _, _ => false
  termination_by structural x => x

def jBeqFields : List (String × JValue) → List (String × JValue) → Bool
  | [], [] => true
  | (k, v) :: fs, (l, w) :: gs => k == l && jBeq v w && jBeqFields fs gs
  | _, _ => false
  termination_by structural x => x

end

theorem jBeqElems_iff {xs : List JValue}
    (ih : ∀ x ∈ xs, ∀ y, jBeq x y = true ↔ x = y) :
    ∀ ys, jBeqElems xs ys = true ↔ xs = ys := by
  induction xs with
  | nil => intro ys; cases ys <;> simp [jBeqElems]
  | cons x xs ihl =>
    intro ys
    cases ys with
    | nil => simp [jBeqElems]
    | cons y ys =>
      rw [jBeqElems, Bool.and_eq_true, ih x (by simp) y,
        ihl (fun z hz => ih z (by simp [hz])) ys]
      simp

theorem jBeqFields_iff {fs : List (String × JValue)}
    (ih : ∀ kv ∈ fs, ∀ y, jBeq kv.2 y = true ↔ kv.2 = y) :
    ∀ gs, jBeqFields fs gs = true ↔ fs = gs := by
  induction fs with
  | nil => intro gs; cases gs <;> simp [jBeqFields]
  | cons kv fs ihl =>
    intro gs
    cases gs with
    | nil => cases kv; simp [jBeqFields]
    | cons lw gs =>
      cases kv with
      | mk k v =>
        cases lw with
        | mk l w =>
          rw [jBeqFields, Bool.and_eq_true, Bool.and_eq_true,
            ih (k, v) (by simp) w,
            ihl (fun z hz => ih z (by simp [hz])) gs]
          simp [beq_iff_eq, and_assoc]

theorem jBeq_iff : ∀ (n : Nat) (a : JValue), sizeOf a ≤ n →
    ∀ b, jBeq a b = true ↔ a = b := by
  intro n
  induction n with
  | zero =>
    intro a ha
    cases a <;> simp at ha
  | succ n ih =>
    intro a ha b
    cases a with
    | vNull => cases b <;> simp [jBeq]
    | vUndefined => cases b <;> simp [jBeq]
    | vBool x => cases b <;> simp [jBeq]
    | vNum x => cases b <;> simp [jBeq, beq_iff_eq]
    | vNaN => cases b <;> simp [jBeq]
    | vStr x => cases b <;> simp [jBeq, beq_iff_eq]
    | vArr xs =>
      cases b with
      | vArr ys =>
        rw [jBeq, jBeqElems_iff (fun x hx y => by
          refine ih x ?_ y
          have hlt := List.sizeOf_lt_of_mem hx
          have hs : sizeOf (JValue.vArr xs) = 1 + sizeOf xs := by simp
          omega)]
        simp
      | vNull => simp [jBeq]
      | vUndefined => simp [jBeq]
      | vBool _ => simp [jBeq]
      | vNum _ => simp [jBeq]
      | vNaN => simp [jBeq]
      | vStr _ => simp [jBeq]
      | vObj _ => simp [jBeq]
    | vObj fs =>
      cases b with
      | vObj gs =>
        rw [jBeq, jBeqFields_iff (fun kv hkv y => by
          refine ih kv.2 ?_ y
          have hlt := List.sizeOf_lt_of_mem hkv
          have hs : sizeOf (JValue.vObj fs) = 1 + sizeOf fs := by simp
          have hkv2 : sizeOf kv.2 ≤ sizeOf kv := by
            cases kv with
            | mk k v => simp
          omega)]
        simp
      | vNull => simp [jBeq]
      | vUndefined => simp [jBeq]
      | vBool _ => simp [jBeq]
      | vNum _ => simp [jBeq]
      | vNaN => simp [jBeq]
      | vStr _ => simp [jBeq]
      | vArr _ => simp [jBeq]

instance : DecidableEq JValue := fun a b =>
  decidable_of_iff (jBeq a b = true) (jBeq_iff (sizeOf a) a (Nat.le_refl _) b)

/-- `toEqual`-style deep equality of JS values (equality of canonical
forms). -/
def DeepEq (a b : JValue) : Prop := canon a = canon b

instance (a b : JValue) : Decidable (DeepEq a b) :=
  inferInstanceAs (Decidable (canon a = canon b))

theorem DeepEq.trans {a b c : JValue} (h1 : DeepEq a b) (h2 : DeepEq b c) :
    DeepEq a c := Eq.trans h1 h2


/-! ## Schema nodes

`Schema` mirrors the fields of the `JSONSchema` interface that the blueprint
reads (the `discriminator` and `additionalProperties` fields are declared in
the interface but never read by the code, so they are omitted). -/

/-- The `type` field: a string or an array of strings. -/
inductive TypeField where
  | one (t : String)
  | many (ts : List String)
  deriving Repr

/-- A JSON-Schema node.  Field order: type, properties, items, required,
enum, const, anyOf, oneOf, minimum, maximum, minLength, maxLength, pattern,
minItems, maxItems, title, description, default, format. -/
inductive Schema where
  | mk
    (type? : Option TypeField)
    (properties? : Option (List (String × Schema)))
    (items? : Option Schema)
    (required? : Option (List String))
    (enum? : Option (List JValue))
    (const? : Option JValue)
    (anyOf? : Option (List Schema))
    (oneOf? : Option (List Schema))
    (minimum? : Option Dec)
    (maximum? : Option Dec)
    (minLength? : Option Nat)
    (maxLength? : Option Nat)
    (pattern? : Option String)
    (minItems? : Option Nat)
    (maxItems? : Option Nat)
    (title? : Option String)
    (description? : Option String)
    (default? : Option JValue)
    (format? : Option String)
  deriving Repr

namespace Schema

def type? : Schema → Option TypeField
  | .mk t _ _ _ _ _ _ _ _ _ _ _ _ _ _ _ _ _ _ => t

def properties? : Schema → Option (List (String × Schema))
  | .mk _ p _ _ _ _ _ _ _ _ _ _ _ _ _ _ _ _ _ => p

def items? : Schema → Option Schema
  | .mk _ _ i _ _ _ _ _ _ _ _ _ _ _ _ _ _ _ _ => i

def required? : Schema → Option (List String)
  | .mk _ _ _ r _ _ _ _ _ _ _ _ _ _ _ _ _ _ _ => r

def enum? : Schema → Option (List JValue)
  | .mk _ _ _ _ e _ _ _ _ _ _ _ _ _ _ _ _ _ _ => e

def const? : Schema → Option JValue
  | .mk _ _ _ _ _ c _ _ _ _ _ _ _ _ _ _ _ _ _ => c

def anyOf? : Schema → Option (List Schema)
  | .mk _ _ _ _ _ _ a _ _ _ _ _ _ _ _ _ _ _ _ => a

def oneOf? : Schema → Option (List Schema)
  | .mk _ _ _ _ _ _ _ o _ _ _ _ _ _ _ _ _ _ _ => o

def minimum? : Schema → Option Dec
  | .mk _ _ _ _ _ _ _ _ mn _ _ _ _ _ _ _ _ _ _ => mn

def maximum? : Schema → Option Dec
  | .mk _ _ _ _ _ _ _ _ _ mx _ _ _ _ _ _ _ _ _ => mx

def minLength? : Schema → Option Nat
  | .mk _ _ _ _ _ _ _ _ _ _ ml _ _ _ _ _ _ _ _ => ml

def maxLength? : Schema → Option Nat
  | .mk _ _ _ _ _ _ _ _ _ _ _ ml _ _ _ _ _ _ _ => ml

def pattern? : Schema → Option String
  | .mk _ _ _ _ _ _ _ _ _ _ _ _ p _ _ _ _ _ _ => p

def minItems? : Schema → Option Nat
  | .mk _ _ _ _ _ _ _ _ _ _ _ _ _ mi _ _ _ _ _ => mi

def maxItems? : Schema → Option Nat
  | .mk _ _ _ _ _ _ _ _ _ _ _ _ _ _ mi _ _ _ _ => mi

def title? : Schema → Option String
  | .mk _ _ _ _ _ _ _ _ _ _ _ _ _ _ _ t _ _ _ => t

def description? : Schema → Option String
  | .mk _ _ _ _ _ _ _ _ _ _ _ _ _ _ _ _ d _ _ => d

def default? : Schema → Option JValue
  | .mk _ _ _ _ _ _ _ _ _ _ _ _ _ _ _ _ _ d _ => d

def format? : Schema → Option String
  | .mk _ _ _ _ _ _ _ _ _ _ _ _ _ _ _ _ _ _ f => f

/-- Schema with every field absent. -/
def blank : Schema :=
  .mk none none none none none none none none none none none none none
    none none none none none none

end Schema

/-- `Array.isArray(schema.type) ? schema.type[0] : schema.type`; `none` when
the field is absent or an empty array (both read back as `undefined`). -/
def typeHead : Option TypeField → Option String
  | none => none
  | some (.one t) => some t
  | some (.many ts) => ts.head?

/-- Is the `type` field falsy (`!variant.type`): absent, or the empty
string?  (An array, even empty, is truthy in JS.) -/
def typeFalsy : Option TypeField → Bool
  | none => true
  | some (.one t) => t == ""
  | some (.many _) => false

/-- `getUnionVariants`: `schema.anyOf || schema.oneOf || null`.  An `anyOf`
that is an empty array is truthy in JS and is returned as-is. -/
def getUnionVariants (s : Schema) : Option (List Schema) :=
  match s.anyOf? with
  | some l => some l
  | none => s.oneOf?

mutual

/-- `getDefaultValue` from `src/blueprint.ts`. -/
def getDefaultValue : Schema → JValue
  | .mk t props _ _ _ _ _ _ mn _ _ _ _ _ _ _ _ dflt _ =>
    match dflt with
    | some d => d
    | none =>
      match typeHead t with
      | some "string" => .vStr ""
      | some "number" => .vNum (mn.getD ⟨0, 0⟩)
      | some "integer" => .vNum (mn.getD ⟨0, 0⟩)
      | some "boolean" => .vBool false
      | some "array" => .vArr []
      | some "object" =>
        match props with
        | some ps => .vObj (defaultFields ps)
        | none => .vObj []
      | _ => .vNull
  termination_by structural x => x

def defaultFields : List (String × Schema) → List (String × JValue)
  | [] => []
  | (k, sub) :: rest => (k, getDefaultValue sub) :: defaultFields rest
  termination_by structural x => x

end

/-! ## Variant detection (`detectVariant`, two passes) -/

/-- First pass, per variant:
`variant.const !== undefined && value === variant.const`. -/
def constMatches (value : JValue) (variant : Schema) : Bool :=
  match variant.const? with
  | some c => JValue.jsStrictEq value c
  | none => false

/-- Discriminator-style match inside an object variant: some declared child
property has a literal `const` equal (strictly) to the value's field. -/
def discrMatches (fields : List (String × JValue)) :
    List (String × Schema) → Bool
  | [] => false
  | (k, sub) :: rest =>
    (match sub.const? with
     | some c => JValue.jsStrictEq ((JValue.lookupField fields k).getD .vUndefined) c
     | none => false) ||
    discrMatches fields rest

/-- Key-superset fallback: every declared child name is a key of the value
(`variantKeys.filter(k => k in value).length === variantKeys.length`). -/
def keysSuperset (fields : List (String × JValue)) (ps : List (String × Schema)) : Bool :=
  ps.all (fun kv => JValue.hasKey fields kv.1)

/-- Second pass, per variant.  A variant with a `const` and a falsy `type`
is skipped (`continue`).  `value` is never nullish here (`detectVariant`
returns early on nullish values), so the `typeof value === 'object'` test
is modelled by matching `vObj`. -/
def typeShapeMatches (value : JValue) (variant : Schema) : Bool :=
  if variant.const?.isSome && typeFalsy variant.type? then false
  else
    match typeHead variant.type? with
    | some "string" => (match value with | .vStr _ => true | _ => false)
    | some "number" => (match value with | .vNum _ => true | .vNaN => true | _ => false)
    | some "integer" => (match value with | .vNum d => d.isInt | _ => false)
    | some "boolean" => (match value with | .vBool _ => true | _ => false)
    | some "array" => (match value with | .vArr _ => true | _ => false)
    | some "object" =>
      match value with
      | .vObj fields =>
        match variant.properties? with
        | some ps => discrMatches fields ps || keysSuperset fields ps
        | none => true
      | _ => false
    | _ => false

/-- Index of the first element satisfying `p`: the shape of the two `for`
loops with early `return i` in `detectVariant`. -/
def firstIdxWhere {α : Type} (p : α → Bool) : List α → Option Nat
  | [] => none
  | x :: rest => if p x then some 0 else (firstIdxWhere p rest).map (· + 1)

/-- `detectVariant` from `src/blueprint.ts`: early return 0 on nullish
values; first pass over const matches; second pass over type/shape matches;
default 0. -/
def detectVariant (value : JValue) (variants : List Schema) : Nat :=
  if value.isNullish then 0
  else
    match firstIdxWhere (constMatches value) variants with
    | some i => i
    | none =>
      match firstIdxWhere (typeShapeMatches value) variants with
      | some i => i
      | none => 0

theorem firstIdxWhere_none_iff {α : Type} (p : α → Bool) (l : List α) :
    firstIdxWhere p l = none ↔ ∀ x ∈ l, p x = false := by
  induction l with
  | nil => simp [firstIdxWhere]
  | cons x rest ih =>
    rw [firstIdxWhere]
    by_cases hx : p x
    · simp [hx]
    · rw [if_neg hx]
      constructor
      · intro h z hz
        have hrest : firstIdxWhere p rest = none := by
          rcases hr : firstIdxWhere p rest with _ | j
          · rfl
          · rw [hr] at h; simp at h
        rcases List.mem_cons.mp hz with rfl | hz2
        · exact Bool.eq_false_iff.mpr hx
        · exact (ih.mp hrest) z hz2
      · intro h
        have hrest : firstIdxWhere p rest = none :=
          ih.mpr (fun z hz => h z (by simp [hz]))
        rw [hrest]
        rfl

theorem firstIdxWhere_found {α : Type} {p : α → Bool} {l : List α} {i : Nat}
    (h : firstIdxWhere p l = some i) : ∃ x, l[i]? = some x ∧ p x = true := by
  induction l generalizing i with
  | nil => simp [firstIdxWhere] at h
  | cons y rest ih =>
    by_cases hy : p y
    · rw [firstIdxWhere, if_pos hy] at h
      cases h
      exact ⟨y, by simp, hy⟩
    · rw [firstIdxWhere, if_neg hy] at h
      rcases hrec : firstIdxWhere p rest with _ | j
      · rw [hrec] at h; simp at h
      · rw [hrec] at h
        simp at h
        obtain ⟨x, hx1, hx2⟩ := ih hrec
        subst h
        exact ⟨x, by simpa using hx1, hx2⟩

theorem firstIdxWhere_le {α : Type} {p : α → Bool} {l : List α} {j : Nat} {x : α}
    (hx : l[j]? = some x) (hp : p x = true) :
    ∃ i, firstIdxWhere p l = some i ∧ i ≤ j := by
  induction l generalizing j with
  | nil => simp at hx
  | cons y rest ih =>
    by_cases hy : p y
    · exact ⟨0, by rw [firstIdxWhere, if_pos hy], Nat.zero_le j⟩
    · cases j with
      | zero =>
        simp at hx
        subst hx
        exact absurd hp (by simpa using hy)
      | succ j =>
        simp at hx
        obtain ⟨i, hi1, hi2⟩ := ih hx
        exact ⟨i + 1, by rw [firstIdxWhere, if_neg hy, hi1]; rfl, by omega⟩

/-! ### Concrete schema builders for examples -/

/-- Schema with only a `type`. -/
def sType (t : String) : Schema :=
  .mk (some (.one t)) none none none none none none none none none none none
    none none none none none none none

/-- Schema with only a `const`. -/
def sConst (c : JValue) : Schema :=
  .mk none none none none none (some c) none none none none none none
    none none none none none none none

/-- Schema with a `type` and a `const` (discriminator-style property). -/
def sTypeConst (t : String) (c : JValue) : Schema :=
  .mk (some (.one t)) none none none none (some c) none none none none none
    none none none none none none none none

/-- Object schema with declared properties. -/
def sObj (ps : List (String × Schema)) : Schema :=
  .mk (some (.one "object")) (some ps) none none none none none none none
    none none none none none none none none none none

/-- The "Product" variant of the variant-detection example. -/
def productVariant : Schema :=
  sObj [("type", sTypeConst "string" (.vStr "product")),
        ("name", sType "string"),
        ("price", sType "number")]

/-- The "Service" variant of the variant-detection example. -/
def serviceVariant : Schema :=
  sObj [("type", sTypeConst "string" (.vStr "service")),
        ("name", sType "string"),
        ("hourlyRate", sType "number")]

/-- The example value `{type:'service', name:'Consulting', hourlyRate:150}`. -/
def serviceValue : JValue :=
  .vObj [("type", .vStr "service"), ("name", .vStr "Consulting"),
         ("hourlyRate", .vNum ⟨150, 0⟩)]


/-! ### Claim C2: const pass precedes type/shape matching -/

/-- C2: `detectVariant` returns 0 on nullish values and when no candidate
matches either pass; otherwise any variant with a literal `const` strictly
equal to the value wins — the earliest such variant is selected regardless
of its position, even when an earlier variant would match by type/shape
(illustrated by the `[{type:'string'}, {const:'x'}]` conjunct); the
discriminator example `{type:'service', name:'Consulting', hourlyRate:150}`
selects variant index 1. -/
theorem c2_detect_variant_const_pass :
    (∀ variants, detectVariant .vNull variants = 0 ∧ detectVariant .vUndefined variants = 0) ∧
    (∀ value variants,
      (∀ x ∈ variants, constMatches value x = false ∧ typeShapeMatches value x = false) →
      detectVariant value variants = 0) ∧
    (∀ value variants j x, value.isNullish = false → variants[j]? = some x →
      constMatches value x = true →
      detectVariant value variants ≤ j ∧
      ∃ y, variants[detectVariant value variants]? = some y ∧
        constMatches value y = true) ∧
    detectVariant (.vStr "x") [sType "string", sConst (.vStr "x")] = 1 ∧
    detectVariant serviceValue [productVariant, serviceVariant] = 1 := by
  refine ⟨fun variants => ⟨rfl, rfl⟩, ?_, ?_, rfl, rfl⟩
  · intro value variants h
    rw [detectVariant]
    by_cases hn : value.isNullish
    · rw [if_pos hn]
    · rw [if_neg hn, (firstIdxWhere_none_iff _ _).mpr (fun x hx => (h x hx).1),
        (firstIdxWhere_none_iff _ _).mpr (fun x hx => (h x hx).2)]
  · intro value variants j x hnn hx hc
    obtain ⟨i, hi, hij⟩ := firstIdxWhere_le hx hc
    have hdet : detectVariant value variants = i := by
      rw [detectVariant, if_neg (by simp [hnn]), hi]
    obtain ⟨y, hy1, hy2⟩ := firstIdxWhere_found hi
    rw [hdet]
    exact ⟨hij, y, hy1, hy2⟩

/-- Witness for C2 at concrete inputs: the no-match conjunct at value
`'q'` with a single number variant, and the const-pass conjunct at value
`'x'` with variants `[{type:'string'}, {const:'x'}]` (position 1). -/
theorem c2_detect_variant_const_pass_witness :
    detectVariant (.vStr "q") [sType "number"] = 0 ∧
    (detectVariant (.vStr "x") [sType "string", sConst (.vStr "x")] ≤ 1 ∧
      ∃ y, [sType "string", sConst (.vStr "x")][detectVariant (.vStr "x")
          [sType "string", sConst (.vStr "x")]]? = some y ∧
        constMatches (.vStr "x") y = true) :=
  ⟨c2_detect_variant_const_pass.2.1 (.vStr "q") [sType "number"]
    (by
      intro x hx
      rcases List.mem_singleton.mp hx with rfl
      exact ⟨rfl, rfl⟩),
   c2_detect_variant_const_pass.2.2.1 (.vStr "x")
    [sType "string", sConst (.vStr "x")] 1 (sConst (.vStr "x")) rfl rfl rfl⟩

/-! ### Claim C10: key-superset fallback beats a later discriminator match -/

/-- C10: for the value `{type:'service', name:'x'}` and object variants
whose discriminator consts are `'product'` and `'service'` but which declare
the same child names, the detector selects variant 0: variant 0's
discriminator const does not equal the value's field, yet variant 0 is
accepted by the key-superset fallback (every declared child name is a key of
the value), even though variant 1's discriminator const does match. -/
theorem c10_superset_fallback_wins :
    detectVariant (.vObj [("type", .vStr "service"), ("name", .vStr "x")])
      [sObj [("type", sTypeConst "string" (.vStr "product")), ("name", sType "string")],
       sObj [("type", sTypeConst "string" (.vStr "service")), ("name", sType "string")]] = 0 ∧
    discrMatches [("type", .vStr "service"), ("name", .vStr "x")]
      [("type", sTypeConst "string" (.vStr "product")), ("name", sType "string")] = false ∧
    keysSuperset [("type", .vStr "service"), ("name", .vStr "x")]
      [("type", sTypeConst "string" (.vStr "product")), ("name", sType "string")] = true ∧
    discrMatches [("type", .vStr "service"), ("name", .vStr "x")]
      [("type", sTypeConst "string" (.vStr "service")), ("name", sType "string")] = true :=
  ⟨rfl, rfl, rfl, rfl⟩


/-! ## Path strings

`setValueByPath` computes
`path.replace(/\\[(\\d+)\\]/g, '.$1').split('.').filter(Boolean)` and then
walks the parts.  The regex replacement is modelled by a character scanner
with the same semantics: every bracket group `[digits]` becomes `.digits`,
leftmost first; a `[` that does not open a full group is left in place (the
characters skipped while trying cannot themselves start a group, so emitting
them unchanged matches the regex engine's restart behaviour). -/

/-- One-pass scanner for `s.replace(/\\[(\\d+)\\]/g, '.$1')`.  The state is
`none` outside a candidate group and `some ds` after a `[` with the digits
seen so far (in reverse).  On a failed group the skipped characters are
emitted unchanged — they cannot start a group themselves, matching the
regex engine's restart behaviour. -/
def rbGo : Option (List Char) → List Char → List Char
  | none, [] => []
  | none, c :: rest =>
    if c = '[' then rbGo (some []) rest
    else c :: rbGo none rest
  | some ds, [] => '[' :: ds.reverse
  | some ds, c :: rest =>
    if isDigitChar c then rbGo (some (c :: ds)) rest
    else if c = ']' then
      if ds.isEmpty then '[' :: ']' :: rbGo none rest
      else '.' :: ds.reverse ++ rbGo none rest
    else
      '[' :: ds.reverse ++
        (if c = '[' then rbGo (some []) rest else c :: rbGo none rest)

/-- `s.replace(/\\[(\\d+)\\]/g, '.$1')` on character lists. -/
def replaceBrackets (cs : List Char) : List Char := rbGo none cs

/-- `s.split('.')` on character lists (keeps empty components). -/
def splitDots : List Char → List (List Char)
  | [] => [[]]
  | c :: rest =>
    if c = '.' then [] :: splitDots rest
    else
      match splitDots rest with
      | seg :: segs => (c :: seg) :: segs
      | [] => [[c]]

/-- The parts list of `setValueByPath`:
`path.replace(/\\[(\\d+)\\]/g, '.$1').split('.').filter(Boolean)`
(`filter(Boolean)` drops empty strings). -/
def parseParts (path : String) : List String :=
  (((splitDots (replaceBrackets path.data)).map fun cs => String.mk cs).filter
    fun s => s ≠ "")

/-- `/^\\d+$/.test(s)`: nonempty and all digits. -/
def isNumericSeg (s : String) : Bool := !s.data.isEmpty && s.data.all isDigitChar

namespace JValue

/-- Overwrite the first binding of `key`, or append a new binding (JS
property assignment keeps the original insertion position on overwrite). -/
def setField : List (String × JValue) → String → JValue → List (String × JValue)
  | [], key, v => [(key, v)]
  | (k, w) :: rest, key, v =>
    if k = key then (k, v) :: rest else (k, w) :: setField rest key v

/-- Set index `n` of an element list, padding holes with `undefined`
(JS sparse-array holes read back as `undefined` and compare as such). -/
def setIdx : List JValue → Nat → JValue → List JValue
  | [], 0, v => [v]
  | [], n + 1, v => vUndefined :: setIdx [] n v
  | _ :: xs, 0, v => v :: xs
  | x :: xs, n + 1, v => x :: setIdx xs n v

/-- Read `current[part]`.  `none` when `current` is not a container (the
walk then throws on the subsequent write; unreachable from
renderer-generated paths).  Missing keys and out-of-range indices read as
`undefined`; array elements are addressed by the numeric value of a digit
segment (renderer paths always use canonical decimal indices). -/
def getProp : JValue → String → Option JValue
  | vObj fs, key => some ((lookupField fs key).getD vUndefined)
  | vArr xs, key =>
    if isNumericSeg key then some ((xs.get? (digitsVal key.data)).getD vUndefined)
    else some vUndefined
  | _, _ => none

/-- Write `current[part] = v`.  On a non-container this is a strict-mode
TypeError (`none`).  A non-numeric key on an array would attach a non-index
property, which the value model cannot represent and the renderer never
produces (`none`). -/
def setProp : JValue → String → JValue → Option JValue
  | vObj fs, key, v => some (vObj (setField fs key v))
  | vArr xs, key, v =>
    if isNumericSeg key then some (vArr (setIdx xs (digitsVal key.data) v))
    else none
  | _, _, _ => none

end JValue

/-- The walk/assign loop of `setValueByPath` over the computed parts:
descend, creating a missing (`== null`) intermediate as an array exactly
when the next part is numeric and as an object otherwise, then assign at the
last part.  An empty parts list performs no assignment (`lastPart` is
falsy). -/
def writeParts : JValue → List String → JValue → Option JValue
  | root, [], _ => some root
  | root, [last], v => root.setProp last v
  | root, part :: next :: rest, v =>
    match root.getProp part with
    | none => none
    | some cur =>
      match writeParts
          (if cur.isNullish then
            (if isNumericSeg next then JValue.vArr [] else JValue.vObj []) else cur)
          (next :: rest) v with
      | none => none
      | some child2 => root.setProp part child2

/-- `setValueByPath` from `src/blueprint.ts`.  The source mutates `obj` in
place; the model returns the updated root, `none` standing for the
strict-mode TypeError of a property write on a primitive. -/
def setValueByPath (obj : JValue) (path : String) (value : JValue) : Option JValue :=
  writeParts obj (parseParts path) value

/-- The nested value that writing along `segs` into freshly created
containers produces: an array level exactly where the segment is numeric. -/
def chainVal : List String → JValue → JValue
  | [], v => v
  | s :: rest, v =>
    if isNumericSeg s then .vArr (JValue.setIdx [] (digitsVal s.data) (chainVal rest v))
    else .vObj [(s, chainVal rest v)]


/-! ### Claim C7: path writing -/

theorem writeParts_fresh (v : JValue) :
    ∀ segs : List String, segs ≠ [] →
      writeParts (if isNumericSeg (segs.headD "") then .vArr [] else .vObj []) segs v
        = some (chainVal segs v) := by
  intro segs
  induction segs with
  | nil => intro h; exact absurd rfl h
  | cons s rest ih =>
    intro _
    simp only [List.headD_cons]
    cases rest with
    | nil =>
      by_cases hs : isNumericSeg s = true
      · rw [if_pos hs]
        simp [writeParts, JValue.setProp, hs, chainVal]
      · have hs2 : isNumericSeg s = false := by simpa using hs
        rw [if_neg hs]
        simp [writeParts, JValue.setProp, hs2, chainVal, JValue.setField]
    | cons next rest2 =>
      have hih := ih (by simp)
      simp only [List.headD_cons] at hih
      by_cases hs : isNumericSeg s = true
      · rw [if_pos hs, writeParts]
        have hget : (JValue.vArr ([] : List JValue)).getProp s = some .vUndefined := by
          simp [JValue.getProp, hs]
        rw [hget]
        simp [hih, JValue.isNullish, JValue.setProp, hs, chainVal]
      · have hs2 : isNumericSeg s = false := by simpa using hs
        rw [if_neg hs, writeParts]
        have hget : (JValue.vObj ([] : List (String × JValue))).getProp s = some .vUndefined := by
          simp [JValue.getProp, JValue.lookupField]
        rw [hget]
        simp [hih, JValue.isNullish, JValue.setProp, JValue.setField, hs2, chainVal]

/-- C7: `setValueByPath` splits the path with bracket groups normalized to
plain numeric parts and empty components dropped (never an error); an empty
parts list assigns nothing; writing into a fresh empty root builds, along
the parts, a list exactly when the next part is numeric and a map otherwise,
assigning the value at the final part — `chainVal` records that structure,
and the concrete conjunct shows `".a[2].b."` creating a padded array level
for `2` and dropping the empty leading/trailing components. -/
theorem c7_set_value_by_path :
    (∀ path, "" ∉ parseParts path) ∧
    parseParts ".a[2].b." = ["a", "2", "b"] ∧
    (∀ root path value, parseParts path = [] → setValueByPath root path value = some root) ∧
    (∀ path value h t, parseParts path = h :: t →
      setValueByPath (.vObj []) path value = some (.vObj [(h, chainVal t value)])) ∧
    setValueByPath (.vObj []) ".a[2].b." (.vStr "v") =
      some (.vObj [("a", .vArr [.vUndefined, .vUndefined, .vObj [("b", .vStr "v")]])]) := by
  refine ⟨?_, rfl, ?_, ?_, rfl⟩
  · intro path h
    have hmem := List.of_mem_filter h
    simp at hmem
  · intro root path value h
    rw [setValueByPath, h, writeParts]
  · intro path value h t hpp
    rw [setValueByPath, hpp]
    cases t with
    | nil => simp [writeParts, JValue.setProp, JValue.setField, chainVal]
    | cons next rest =>
      rw [writeParts]
      have hget : (JValue.vObj ([] : List (String × JValue))).getProp h = some .vUndefined := by
        simp [JValue.getProp, JValue.lookupField]
      rw [hget]
      have hfresh := writeParts_fresh value (next :: rest) (by simp)
      simp only [List.headD_cons] at hfresh
      simp [hfresh, JValue.isNullish, JValue.setProp, JValue.setField, chainVal]

/-- Witness for C7: the no-assignment conjunct at path `"."` and the
fresh-root conjunct at path `"a[2]"`. -/
theorem c7_set_value_by_path_witness :
    setValueByPath (.vObj [("k", .vStr "w")]) "." (.vStr "v") =
      some (.vObj [("k", .vStr "w")]) ∧
    setValueByPath (.vObj []) "a[2]" (.vNum ⟨7, 0⟩) =
      some (.vObj [("a", chainVal ["2"] (.vNum ⟨7, 0⟩))]) :=
  ⟨c7_set_value_by_path.2.2.1 (.vObj [("k", .vStr "w")]) "." (.vStr "v") rfl,
   c7_set_value_by_path.2.2.2.1 "a[2]" (.vNum ⟨7, 0⟩) "a" ["2"] rfl⟩


/-! ## Bound controls and the data collector

A `Control` is one element matched by the collector's query
`input[data-path]:not([data-union]), select[data-path]:not([data-union]),
textarea[data-path]:not([data-union])`, in document order: either a checkbox
(`input type="checkbox"`) with its checked state, or any other control with
its string value and optional declared `data-type`. -/

inductive Control where
  | checkbox (path : String) (checked : Bool)
  | field (path : String) (dataType : Option String) (value : String)
  deriving Repr, DecidableEq

/-- The control's `data-path`. -/
def Control.path : Control → String
  | .checkbox p _ => p
  | .field p _ _ => p

/-- `Number(s)` as the collector applies it (`none` = `NaN`, represented as
`vNaN`). -/
def jsNumberOf (s : String) : JValue :=
  match parseDec s with
  | some d => .vNum d
  | none => .vNaN

/-- The per-control value coercion of `collectFormData`: checkbox state as a
boolean; declared numeric type with an empty value → `undefined`, otherwise
`Number(value)`; declared boolean type (non-checkbox) → `value === 'true'`;
otherwise the raw string. -/
def coerceControl : Control → JValue
  | .checkbox _ b => .vBool b
  | .field _ dt v =>
    if dt = some "number" ∨ dt = some "integer" then
      (if v = "" then .vUndefined else jsNumberOf v)
    else if dt = some "boolean" then .vBool (v == "true")
    else .vStr v

/-- `collectFormData` from `src/blueprint.ts`: start from a fresh `{}` and
fold every bound control in document order through `setValueByPath`
(controls with an empty path are skipped by the `if (!path) return` guard).
`none` models a TypeError during a path write, unreachable on
renderer-generated paths. -/
def collectFormData (controls : List Control) : Option JValue :=
  controls.foldlM
    (fun root c =>
      if c.path = "" then some root
      else setValueByPath root c.path (coerceControl c))
    (JValue.vObj [])


/-! ### Claim C4: collector coercions -/

theorem setField_of_absent {fs : List (String × JValue)} {k : String} (v : JValue)
    (h : JValue.lookupField fs k = none) :
    JValue.setField fs k v = fs ++ [(k, v)] := by
  induction fs with
  | nil => rfl
  | cons kw rest ih =>
    cases kw with
    | mk key w =>
      rw [JValue.lookupField] at h
      by_cases hk : key = k
      · rw [if_pos hk] at h; simp at h
      · rw [if_neg hk] at h
        rw [JValue.setField, if_neg hk, ih h]
        rfl

theorem canonFields_append (xs ys : List (String × JValue)) :
    canonFields (xs ++ ys) = canonFields xs ++ canonFields ys := by
  induction xs with
  | nil => rfl
  | cons kv rest ih =>
    cases kv with
    | mk k v =>
      cases v <;> simp [canonFields, ih]

theorem lookupField_append_of_absent {fs gs : List (String × JValue)} {k : String}
    (h : JValue.lookupField fs k = none) :
    JValue.lookupField (fs ++ gs) k = JValue.lookupField gs k := by
  induction fs with
  | nil => rfl
  | cons kw rest ih =>
    cases kw with
    | mk key w =>
      rw [JValue.lookupField] at h
      by_cases hk : key = k
      · rw [if_pos hk] at h; simp at h
      · rw [if_neg hk] at h
        rw [List.cons_append, JValue.lookupField, if_neg hk, ih h]

/-- C4: for every bound control: a checkbox contributes its checked state as
a boolean; a declared-numeric control with empty string value binds its key
to `undefined` — deep-equal to omitting the key entirely, and in particular
neither `0`, `null` nor `""`; a declared-numeric control with a nonempty
value contributes `Number(value)`; a non-checkbox declared-boolean control
contributes `value === "true"`; every other control contributes its raw
string.  The last conjunct collects a two-control form whose empty-valued
integer control leaves `user.age` omitted up to deep equality. -/
theorem c4_collector_coercions :
    (∀ path b, coerceControl (.checkbox path b) = .vBool b) ∧
    (∀ path dt, (dt = some "number" ∨ dt = some "integer") →
      coerceControl (.field path dt "") = .vUndefined) ∧
    (∀ path dt s, (dt = some "number" ∨ dt = some "integer") → s ≠ "" →
      coerceControl (.field path dt s) = jsNumberOf s) ∧
    (∀ path s, coerceControl (.field path (some "boolean") s) = .vBool (s == "true")) ∧
    (∀ path dt s, ¬(dt = some "number" ∨ dt = some "integer") →
      dt ≠ some "boolean" → coerceControl (.field path dt s) = .vStr s) ∧
    (∀ fs path k dt, parseParts path = [k] →
      (dt = some "number" ∨ dt = some "integer") →
      JValue.lookupField fs k = none →
      setValueByPath (.vObj fs) path (coerceControl (.field path dt "")) =
        some (.vObj (fs ++ [(k, .vUndefined)])) ∧
      DeepEq (.vObj (fs ++ [(k, .vUndefined)])) (.vObj fs) ∧
      JValue.lookupField (fs ++ [(k, .vUndefined)]) k = some .vUndefined) ∧
    (collectFormData [.field "user.age" (some "integer") "",
        .field "user.name" (some "string") "Jo"] =
      some (.vObj [("user", .vObj [("age", .vUndefined), ("name", .vStr "Jo")])]) ∧
      DeepEq (.vObj [("user", .vObj [("age", .vUndefined), ("name", .vStr "Jo")])])
        (.vObj [("user", .vObj [("name", .vStr "Jo")])])) := by
  refine ⟨fun path b => rfl, ?_, ?_, fun path s => rfl, ?_, ?_, by decide⟩
  · intro path dt h
    rcases h with rfl | rfl <;> rfl
  · intro path dt s h hs
    rcases h with rfl | rfl <;>
      · rw [coerceControl, if_pos (by simp), if_neg hs]
  · intro path dt s h1 h2
    rw [coerceControl, if_neg h1, if_neg (by simpa using h2)]
  · intro fs path k dt hpp hdt habs
    have hco : coerceControl (.field path dt "") = .vUndefined := by
      rcases hdt with rfl | rfl <;> rfl
    rw [hco, setValueByPath, hpp, writeParts, JValue.setProp,
      setField_of_absent _ habs]
    refine ⟨rfl, ?_, ?_⟩
    · show canon _ = canon _
      rw [canon, canon, canonFields_append]
      simp [canonFields]
    · rw [lookupField_append_of_absent habs, JValue.lookupField, if_pos rfl]

/-- Witness for C4 at concrete inputs: each conditional conjunct applied to
a concrete control, including the omission of an absent `age` key written by
an empty-valued integer control. -/
theorem c4_collector_coercions_witness :
    coerceControl (.field "age" (some "number") "") = .vUndefined ∧
    coerceControl (.field "x" (some "integer") "42") = jsNumberOf "42" ∧
    coerceControl (.field "h" none "hi") = .vStr "hi" ∧
    (setValueByPath (.vObj [("name", .vStr "Jo")]) "age"
        (coerceControl (.field "age" (some "integer") "")) =
      some (.vObj [("name", .vStr "Jo"), ("age", .vUndefined)]) ∧
      DeepEq (.vObj [("name", .vStr "Jo"), ("age", .vUndefined)])
        (.vObj [("name", .vStr "Jo")]) ∧
      JValue.lookupField [("name", .vStr "Jo"), ("age", .vUndefined)] "age" =
        some .vUndefined) :=
  ⟨c4_collector_coercions.2.1 "age" (some "number") (Or.inl rfl),
   c4_collector_coercions.2.2.1 "x" (some "integer") "42" (Or.inr rfl) (by decide),
   c4_collector_coercions.2.2.2.2.1 "h" none "hi" (by simp) (by simp),
   c4_collector_coercions.2.2.2.2.2.1 [("name", .vStr "Jo")] "age" "age"
     (some "integer") rfl (Or.inr rfl) rfl⟩


/-! ## Array re-indexing (`reindexArrayItems`)

`reindexArrayItems` walks the container's direct `.schema-array-item`
children in document order, sets each `data-index` to its position, and for
every `[data-path]` descendant replaces the FIRST `[digits]` group of the
path — the regex `/\\[\\d+\\]/` has no `g` flag — with the item's new index,
mirroring the rewrite into the `name` attribute when the element has one. -/

/-- One `[data-path]` descendant of an array item: the `data-path`
attribute value and the `name` attribute value when present (both rewritten
together). -/
structure BoundEl where
  path : String
  name? : Option String
  deriving Repr, DecidableEq

/-- One direct `.schema-array-item` child: its `data-index` attribute and
its `[data-path]` descendants in document order. -/
structure ArrayItem where
  dataIndex : Nat
  els : List BoundEl
  deriving Repr, DecidableEq

/-- `path.replace(/\\[\\d+\\]/, "[" + index + "]")`: replace the first
bracketed digit group only (state machine as in `rbGo`). -/
def rfiGo (idx : Nat) : Option (List Char) → List Char → List Char
  | none, [] => []
  | none, c :: rest =>
    if c = '[' then rfiGo idx (some []) rest
    else c :: rfiGo idx none rest
  | some ds, [] => '[' :: ds.reverse
  | some ds, c :: rest =>
    if isDigitChar c then rfiGo idx (some (c :: ds)) rest
    else if c = ']' then
      if ds.isEmpty then '[' :: ']' :: rfiGo idx none rest
      else '[' :: (natDigits idx ++ ']' :: rest)
    else
      '[' :: ds.reverse ++
        (if c = '[' then rfiGo idx (some []) rest else c :: rfiGo idx none rest)

/-- Replace the first `[digits]` group of a path with `[index]`. -/
def replaceArrayIdx (path : String) (index : Nat) : String :=
  String.mk (rfiGo index none path.data)

/-- `reindexArrayItems` from `src/blueprint.ts`. -/
def reindexArrayItems (items : List ArrayItem) : List ArrayItem :=
  items.mapIdx fun index item =>
    { dataIndex := index
      els := item.els.map fun el =>
        let newPath := replaceArrayIdx el.path index
        { path := newPath, name? := el.name?.map fun _ => newPath } }


/-! ### Claim C3: re-indexing rewrites the FIRST bracket group only

For a flat array every descendant path's only bracket group is the item's
own index segment, so the rewrite is correct (second conjunct: the
`['A','B','C','D']`-remove-1 scenario).  But for a nested array the first
bracket group of a descendant path belongs to the OUTER array, so
re-indexing the inner container rewrites the wrong segment: an inner item
surviving at `orders[1].items[1]` that should become `orders[1].items[0]`
becomes `orders[0].items[1]` instead — code bug relative to the claimed
invariant. -/

/-- C3 evaluation: the flat remove-at-1 case is renumbered correctly, while
the nested case rewrites the outer index instead of the inner one. -/
theorem c3_reindex_first_bracket_only :
    reindexArrayItems
      [⟨0, [⟨"list[0]", some "list[0]"⟩]⟩,
       ⟨2, [⟨"list[2]", some "list[2]"⟩]⟩,
       ⟨3, [⟨"list[3]", some "list[3]"⟩]⟩] =
      [⟨0, [⟨"list[0]", some "list[0]"⟩]⟩,
       ⟨1, [⟨"list[1]", some "list[1]"⟩]⟩,
       ⟨2, [⟨"list[2]", some "list[2]"⟩]⟩] ∧
    reindexArrayItems [⟨1, [⟨"orders[1].items[1]", some "orders[1].items[1]"⟩]⟩] =
      [⟨0, [⟨"orders[0].items[1]", some "orders[0].items[1]"⟩]⟩] ∧
    "orders[0].items[1]" ≠ "orders[1].items[0]" := by
  refine ⟨by decide, by decide, by decide⟩


/-! ## The form component (`getData`) -/

/-- The component's observable state: the `_schema` and `_data` fields and
the rendered form (`none` when `this.querySelector('form')` finds nothing,
e.g. before any render).  A rendered form is observed through the ordered
bound controls the collector reads. -/
structure CompState where
  schema : Schema
  data : JValue
  form? : Option (List Control)
  deriving Repr

/-- `getData()` from `src/blueprint.ts`: `collectFormData` over the rendered
form when one exists; the live `_data` field otherwise. -/
def getData (s : CompState) : Option JValue :=
  match s.form? with
  | some controls => collectFormData controls
  | none => some s.data

/-- `getData` as a state transition: the method body contains no write to
`_schema`, `_data` or the DOM, so its transliteration returns the state
unchanged. -/
def getDataStep (s : CompState) : CompState × Option JValue := (s, getData s)

/-! ### Claim C9: `getData` freshness

The claim fails as stated: when no form is rendered, `getData()` returns
the live `_data` value itself (`if (!formEl) return this.data`), so the
result does not reflect only DOM state and is not a freshly assembled root.
With a rendered form the claim holds: the result is the collector's fresh
assembly and depends only on the form. -/

/-- C9 counterexample: two states with identical (absent) rendered forms but
different `_data` give different `getData()` results, and the result is the
live `_data` field — refuting "in every state it returns a freshly
assembled root, never the live bound data value". -/
theorem c9_formless_get_data_returns_live_data :
    (⟨Schema.blank, .vStr "a", none⟩ : CompState).form? =
      (⟨Schema.blank, .vStr "b", none⟩ : CompState).form? ∧
    getData ⟨Schema.blank, .vStr "a", none⟩ ≠ getData ⟨Schema.blank, .vStr "b", none⟩ ∧
    getData ⟨Schema.blank, .vStr "a", none⟩ =
      some (⟨Schema.blank, .vStr "a", none⟩ : CompState).data := by
  refine ⟨rfl, by decide, rfl⟩

/-- C9 (amended): `getData()` causes no state transition, and whenever a
form is rendered its result is assembled freshly by the collector from the
form alone — two states with the same rendered form agree on `getData()`
regardless of their `data` fields. -/
theorem c9_get_data_pure_dom_read :
    (∀ s, (getDataStep s).1 = s) ∧
    (∀ s t : CompState, s.form? = t.form? → s.form? ≠ none → getData s = getData t) ∧
    (∀ s controls, s.form? = some controls → getData s = collectFormData controls) := by
  refine ⟨fun s => rfl, ?_, ?_⟩
  · intro s t hft hne
    rw [getData, getData, hft]
    rcases h : t.form? with _ | controls
    · exact absurd (hft.trans h) hne
    · rfl
  · intro s controls h
    rw [getData, h]

/-- Witness for C9: two concrete states sharing a one-control form but
holding different `data` fields produce the same `getData()` result. -/
theorem c9_get_data_pure_dom_read_witness :
    getData ⟨sType "string", .vStr "a", some [.field "name" (some "string") "x"]⟩ =
      getData ⟨Schema.blank, .vStr "b", some [.field "name" (some "string") "x"]⟩ :=
  c9_get_data_pure_dom_read.2.1
    ⟨sType "string", .vStr "a", some [.field "name" (some "string") "x"]⟩
    ⟨Schema.blank, .vStr "b", some [.field "name" (some "string") "x"]⟩
    rfl (by simp)


/-! ## Numeric field rendering (`renderField`, number/integer branch) -/

namespace Dec

/-- Exact decimal subtraction (used for the non-integer slider step
`(maximum - minimum) / 100`; float rounding of the source is immaterial to
the claims and not modelled). -/
def sub (a b : Dec) : Dec := ⟨a.m * (10 : Int) ^ b.e - b.m * (10 : Int) ^ a.e, a.e + b.e⟩

/-- Exact division by 100. -/
def div100 (a : Dec) : Dec := ⟨a.m, a.e + 2⟩

/-- Strict numeric order (the `value < min` / `max < value` tests of the
native range-input value sanitization). -/
def numLt (a b : Dec) : Bool := a.m * (10 : Int) ^ b.e < b.m * (10 : Int) ^ a.e

/-- Exact decimal addition. -/
def add (a b : Dec) : Dec := ⟨a.m * (10 : Int) ^ b.e + b.m * (10 : Int) ^ a.e, a.e + b.e⟩

/-- Exact halving (`m / 10^e / 2 = 5m / 10^(e+1)`). -/
def half (a : Dec) : Dec := ⟨a.m * 5, a.e + 1⟩

end Dec

/-- `a ?? b`. -/
def nullishOr (a b : JValue) : JValue := if a.isNullish then b else a

/-- The value of a numeric `step` attribute. -/
inductive StepAttr where
  | one
  | any
  | dec (d : Dec)
  deriving Repr, DecidableEq

/-- The paired range rendering: the slider is the named, path-bound control
(`name`, `data-path`, `data-type`); the companion number box carries no
`name`/`data-path` and is invisible to the collector. -/
structure RangeRender where
  rangeMin : Option Dec
  rangeMax : Option Dec
  rangeStep : StepAttr
  rangeValue : String
  rangeName : String
  rangeDataType : String
  numberMin : Option Dec
  numberMax : Option Dec
  numberStep : StepAttr
  numberValue : String
  deriving Repr, DecidableEq

/-- Result of the number/integer branch of `renderField`: a paired
slider+number rendering, or a single plain number input. -/
inductive NumericRender where
  | range (r : RangeRender)
  | plain (mn : Option Dec) (mx : Option Dec) (step : StepAttr) (value : String)
      (name : String) (dataType : String)
  deriving Repr, DecidableEq

/-- Longest-decimal-prefix parse of `parseFloat` (unsigned part): the
leading digit run, optionally followed by a point and a further digit run
(`digits`, `digits.digits`, `.digits` or `digits.`, at least one digit);
`none` = `NaN`.  (Exponent forms never arise from a number input's
value.) -/
def parseFloatNat (cs : List Char) : Option Dec :=
  if (cs.dropWhile isDigitChar).head? = some '.' then
    if (cs.takeWhile isDigitChar).isEmpty &&
        ((cs.dropWhile isDigitChar).tail.takeWhile isDigitChar).isEmpty then none
    else some ⟨digitsVal (cs.takeWhile isDigitChar) *
        10 ^ ((cs.dropWhile isDigitChar).tail.takeWhile isDigitChar).length +
      digitsVal ((cs.dropWhile isDigitChar).tail.takeWhile isDigitChar),
      ((cs.dropWhile isDigitChar).tail.takeWhile isDigitChar).length⟩
  else
    if (cs.takeWhile isDigitChar).isEmpty then none
    else some ⟨digitsVal (cs.takeWhile isDigitChar), 0⟩

/-- `parseFloat` on a character list: an optional leading minus sign, then
the unsigned decimal prefix. -/
def parseFloatChars (cs : List Char) : Option Dec :=
  match cs with
  | c :: rest =>
    if c = '-' then (parseFloatNat rest).map fun d => ⟨-d.m, d.e⟩
    else parseFloatNat (c :: rest)
  | [] => parseFloatNat []

/-- `parseFloat(s)` (`none` = `NaN`). -/
def parseFloatDec (s : String) : Option Dec := parseFloatChars s.data

/-- The default value of a range input: the minimum plus half the span,
or the minimum when the bounds are reversed (HTML value sanitization). -/
def rangeDefaultVal (mn mx : Dec) : Dec :=
  if Dec.numLe mx mn then mn else Dec.add mn (Dec.half (Dec.sub mx mn))

/-- Native `<input type="range">` value sanitization, applied by the
browser when `value` is assigned: the string is parsed as a
floating-point number (an unparseable assignment resets to the default
value); a value strictly below the minimum is replaced by the minimum and
one strictly above the maximum by the maximum, an in-range value keeps
the assigned text.  A missing `min`/`max` attribute defaults to 0 / 100. -/
def rangeSanitize (mnA mxA : Option Dec) (s : String) : String :=
  let mn := mnA.getD ⟨0, 0⟩
  let mx := mxA.getD ⟨100, 0⟩
  match parseFloatDec s with
  | some d =>
    if Dec.numLt d mn then printDec mn
    else if Dec.numLt mx d then printDec mx
    else s
  | none => printDec (rangeDefaultVal mn mx)

/-- The number/integer branch of `renderField` (ids, `required`, label and
`aria-label` are presentation-only and omitted).  `hasRange` is
`format === 'range' || (minimum !== undefined && maximum !== undefined)`;
the rendered value is `value ?? default ?? minimum ?? 0` stringified (for
the plain input, `value ?? default ?? ''`).  The slider's live value is
what the browser holds after assigning that string, i.e. after native
range-value sanitization (`rangeSanitize`); the companion number box and
the plain number input do not clamp on assignment, and every string the
modelled paths assign to them is a valid decimal or empty, for which a
number input's own sanitization is the identity. -/
def renderNumericField (schemaType : String) (s : Schema) (value : JValue)
    (path : String) : NumericRender :=
  let hasRange := s.format? = some "range" ∨ (s.minimum?.isSome ∧ s.maximum?.isSome)
  if hasRange then
    let stepVal : StepAttr :=
      if schemaType = "integer" then .one
      else .dec (Dec.div100 (Dec.sub (s.maximum?.getD ⟨0, 0⟩) (s.minimum?.getD ⟨0, 0⟩)))
    let currentVal :=
      nullishOr value (nullishOr (s.default?.getD .vUndefined)
        (nullishOr ((s.minimum?.map JValue.vNum).getD .vUndefined) (.vNum ⟨0, 0⟩)))
  .range
    { rangeMin := s.minimum?
      rangeMax := s.maximum?
      rangeStep := if schemaType = "integer" then .one else stepVal
      rangeValue := rangeSanitize s.minimum? s.maximum? (JValue.jsToStr currentVal)
      rangeName := path
      rangeDataType := schemaType
      numberMin := s.minimum?
      numberMax := s.maximum?
      numberStep := if schemaType = "integer" then .one else .any
      numberValue := JValue.jsToStr currentVal }
  else
    .plain s.minimum? s.maximum?
      (if schemaType = "integer" then .one else .any)
      (JValue.jsToStr (nullishOr value (nullishOr (s.default?.getD .vUndefined) (.vStr ""))))
      path schemaType

/-- The two live values of a rendered range pair. -/
structure RangeState where
  rangeValue : String
  numberValue : String
  deriving Repr, DecidableEq

/-- The slider's `input` listener: copy the slider value into the number
box (unclamped). -/
def rangeInputHandler (st : RangeState) : RangeState :=
  { rangeValue := st.rangeValue, numberValue := st.rangeValue }

/-- The number box's `input` listener: `parseFloat` the typed text; if NaN
do nothing; otherwise clamp into the declared bounds with
`Math.max`/`Math.min` and write the clamped value to the SLIDER.  The
number box itself keeps the raw typed text.  (The assigned slider value is
already within the declared bounds, so the native range sanitization keeps
it as assigned.) -/
def numberInputHandler (s : Schema) (st : RangeState) : RangeState :=
  match parseFloatDec st.numberValue with
  | none => st
  | some val =>
    let val1 := match s.minimum? with
      | some mn => Dec.dmax val mn
      | none => val
    let val2 := match s.maximum? with
      | some mx => Dec.dmin val1 mx
      | none => val1
    { rangeValue := printDec val2, numberValue := st.numberValue }

/-- Numeric schema with a type and optional bounds. -/
def sNum (t : String) (mn mx : Option Dec) : Schema :=
  .mk (some (.one t)) none none none none none none none mn mx none none
    none none none none none none none


/-! ### Claim C8: range rendering and slider/number sync -/

theorem Dec.numLe_refl (a : Dec) : Dec.numLe a a = true := by
  simp [Dec.numLe]

theorem Dec.numLe_total (a b : Dec) :
    Dec.numLe a b = true ∨ Dec.numLe b a = true := by
  simp only [Dec.numLe, decide_eq_true_eq]
  exact Int.le_total _ _

theorem Dec.le_dmax_right (d mn : Dec) : Dec.numLe mn (Dec.dmax d mn) = true := by
  rw [Dec.dmax]
  by_cases h : Dec.numLe d mn = true
  · rw [if_pos h]; exact Dec.numLe_refl mn
  · rw [if_neg h]
    rcases Dec.numLe_total d mn with h2 | h2
    · exact absurd h2 h
    · exact h2

theorem Dec.dmin_le_right (x mx : Dec) : Dec.numLe (Dec.dmin x mx) mx = true := by
  rw [Dec.dmin]
  by_cases h : Dec.numLe x mx = true
  · rw [if_pos h]; exact h
  · rw [if_neg h]; exact Dec.numLe_refl mx

theorem Dec.le_dmin {mn x mx : Dec} (h1 : Dec.numLe mn x = true)
    (h2 : Dec.numLe mn mx = true) : Dec.numLe mn (Dec.dmin x mx) = true := by
  rw [Dec.dmin]
  by_cases h : Dec.numLe x mx = true
  · rw [if_pos h]; exact h1
  · rw [if_neg h]; exact h2

/-- C8 (amended): a numeric node with both bounds renders the paired slider
plus companion number box — with `minimum:0, maximum:120` and type integer
the slider carries min 0, max 120, step 1; the pair is synced by the two
listeners: a slider edit copies the raw slider value into the number box,
and a number edit with parseable text leaves the number box holding the raw
text while writing the value clamped into `[minimum, maximum]` to the
SLIDER (the code clamps the propagated slider value, not the number box,
contrary to the claim's wording); a non-integer schema with only `minimum`
renders a single plain number input with step `any` carrying the bound as
its native min attribute. -/
theorem c8_numeric_rendering :
    (renderNumericField "integer" (sNum "integer" (some ⟨0, 0⟩) (some ⟨120, 0⟩))
        .vUndefined "age" =
      .range { rangeMin := some ⟨0, 0⟩, rangeMax := some ⟨120, 0⟩, rangeStep := .one,
               rangeValue := "0", rangeName := "age", rangeDataType := "integer",
               numberMin := some ⟨0, 0⟩, numberMax := some ⟨120, 0⟩, numberStep := .one,
               numberValue := "0" }) ∧
    (∀ st, rangeInputHandler st = ⟨st.rangeValue, st.rangeValue⟩) ∧
    (∀ s st, (numberInputHandler s st).numberValue = st.numberValue) ∧
    (∀ mn mx st d t, parseFloatDec st.numberValue = some d →
      Dec.numLe mn mx = true →
      numberInputHandler (sNum t (some mn) (some mx)) st =
        ⟨printDec (Dec.dmin (Dec.dmax d mn) mx), st.numberValue⟩ ∧
      Dec.numLe mn (Dec.dmin (Dec.dmax d mn) mx) = true ∧
      Dec.numLe (Dec.dmin (Dec.dmax d mn) mx) mx = true) ∧
    (renderNumericField "number" (sNum "number" (some ⟨0, 0⟩) none) .vUndefined "amount" =
      .plain (some ⟨0, 0⟩) none .any "" "amount" "number") := by
  refine ⟨by decide, fun st => rfl, ?_, ?_, by decide⟩
  · intro s st
    rw [numberInputHandler]
    rcases h : parseFloatDec st.numberValue with _ | d
    · rfl
    · rfl
  · intro mn mx st d t hpf hle
    rw [numberInputHandler, hpf]
    refine ⟨rfl, Dec.le_dmin (Dec.le_dmax_right d mn) hle, Dec.dmin_le_right _ mx⟩

/-- Witness for C8: the number-edit conjunct at the concrete pair state
`("50", "500")` under bounds 0..120. -/
theorem c8_numeric_rendering_witness :
    numberInputHandler (sNum "integer" (some ⟨0, 0⟩) (some ⟨120, 0⟩)) ⟨"50", "500"⟩ =
      ⟨printDec (Dec.dmin (Dec.dmax ⟨500, 0⟩ ⟨0, 0⟩) ⟨120, 0⟩), "500"⟩ ∧
    Dec.numLe ⟨0, 0⟩ (Dec.dmin (Dec.dmax ⟨500, 0⟩ ⟨0, 0⟩) ⟨120, 0⟩) = true ∧
    Dec.numLe (Dec.dmin (Dec.dmax ⟨500, 0⟩ ⟨0, 0⟩) ⟨120, 0⟩) ⟨120, 0⟩ = true :=
  c8_numeric_rendering.2.2.2.1 ⟨0, 0⟩ ⟨120, 0⟩ ⟨"50", "500"⟩ ⟨500, 0⟩ "integer"
    (by decide) (by decide)

/-- C8 counterexample: after a number-box edit to `"500"` under bounds
0..120 the number box still holds `"500"` (value 500, outside the bounds) —
the number input is NOT clamped; the clamped value `"120"` lands in the
slider instead. -/
theorem c8_number_box_not_clamped :
    numberInputHandler (sNum "integer" (some ⟨0, 0⟩) (some ⟨120, 0⟩)) ⟨"50", "500"⟩ =
      ⟨"120", "500"⟩ ∧
    parseFloatDec "500" = some ⟨500, 0⟩ ∧
    Dec.numLe ⟨500, 0⟩ ⟨120, 0⟩ = false := by decide


/-! ## The field renderer's collector projection

`controlsGo` transliterates `renderField` (and the object/array/item
renderers it calls), keeping exactly the controls the collector's query
selects — named inputs/selects/textareas carrying `data-path` and no
`data-union` — in document order.  Labels, ids, descriptions, fieldsets,
remove buttons, the union variant selector (`data-union`) and the unnamed
range companion box contribute no controls.  The first argument is
structural fuel; `schemaDepth` of the schema is always enough (each
recursive `renderField` call descends into a property, item or variant
subschema). -/

mutual

/-- Recursion depth bound of a schema tree. -/
def schemaDepth : Schema → Nat
  | .mk _ props items _ _ _ any1 one1 _ _ _ _ _ _ _ _ _ _ _ =>
    1 + Nat.max (depthPropsOpt props)
      (Nat.max (depthOpt items) (Nat.max (depthVariantsOpt any1) (depthVariantsOpt one1)))
  termination_by structural x => x

def depthOpt : Option Schema → Nat
  | none => 0
  | some s => schemaDepth s
  termination_by structural x => x

def depthPropsOpt : Option (List (String × Schema)) → Nat
  | none => 0
  | some ps => depthProps ps
  termination_by structural x => x

def depthProps : List (String × Schema) → Nat
  | [] => 0
  | (_, s) :: rest => Nat.max (schemaDepth s) (depthProps rest)
  termination_by structural x => x

def depthVariantsOpt : Option (List Schema) → Nat
  | none => 0
  | some l => depthVariants l
  termination_by structural x => x

def depthVariants : List Schema → Nat
  | [] => 0
  | s :: rest => Nat.max (schemaDepth s) (depthVariants rest)
  termination_by structural x => x

end

/-- `a || b`. -/
def jsOr (a b : JValue) : JValue := if a.truthy then a else b

/-- Property read `value[key]` / `value?.[key]` as the renderer uses it:
`undefined` when the key is absent or the value is not a plain object
(string index/length properties are unreachable in the modelled paths). -/
def objGet : JValue → String → JValue
  | .vObj fs, k => (JValue.lookupField fs k).getD .vUndefined
  | _, _ => .vUndefined

/-- The value a rendered `<select>` reports after
`if (value !== undefined && value !== null) selectEl.value = String(value)`:
the leading blank option leaves `""` when nothing is assigned or when no
option matches the assigned string. -/
def selectValue (value : JValue) (optVals : List String) : String :=
  if value.isNullish then ""
  else if JValue.jsToStr value ∈ "" :: optVals then JValue.jsToStr value else ""

/-- `data-type` of a const control:
`typeof c === 'number' ? (Number.isInteger(c) ? 'integer' : 'number') :
typeof c`. -/
def constTypeName (c : JValue) : String :=
  match c with
  | .vNum d => if d.isInt then "integer" else "number"
  | .vNaN => "number"
  | c => JValue.jsTypeOf c

/-- The control contributed by the numeric branch: the named slider of a
range pair (the companion number box has no `data-path`), or the plain
number input. -/
def numericControlsOf (schemaType : String) (s : Schema) (value : JValue)
    (path : String) : List Control :=
  match renderNumericField schemaType s value path with
  | .range r => [.field r.rangeName (some r.rangeDataType) r.rangeValue]
  | .plain _ _ _ v nm dt => [.field nm (some dt) v]

/-- `path + "[" + index + "]"`. -/
def itemPath (path : String) (i : Nat) : String :=
  path ++ "[" ++ String.mk (natDigits i) ++ "]"

/-- `path + "." + key`. -/
def childPath (path : String) (k : String) : String := path ++ "." ++ k

/-- The bound controls `renderField` emits for one field, in document
order (see the section comment). -/
def controlsGo : Nat → Schema → JValue → String → List Control
  | 0, _, _, _ => []
  | fuel + 1, s, value, path =>
    match getUnionVariants s with
    | some variants =>
      if variants.all fun v => v.const?.isSome then
        -- all-const union: a single plain select bound to the path
        [.field path none
          (selectValue value (variants.map fun v => JValue.jsToStr (v.const?.getD .vUndefined)))]
      else
        -- complex union: the selector carries data-union (collector skips
        -- it); the content renders the detected variant.  A complex union
        -- is never empty (an empty list takes the all-const branch), so
        -- the index is always in range.
        match variants[detectVariant value variants]? with
        | none => []
        | some cv =>
          if typeHead cv.type? = some "object" ∧ cv.properties?.isSome then
            (cv.properties?.getD []).flatMap fun kv =>
              controlsGo fuel kv.2 (objGet value kv.1) (childPath path kv.1)
          else controlsGo fuel cv value path
    | none =>
    match s.const? with
    | some c =>
      -- const: a hidden input fixed to the literal, data-const, typed
      [.field path (some (constTypeName c)) (JValue.jsToStr c)]
    | none =>
    match s.enum? with
    | some vs => [.field path none (selectValue value (vs.map JValue.jsToStr))]
    | none =>
    if typeHead s.type? = some "string" then
      [.field path (some "string")
        (JValue.jsToStr (nullishOr value (nullishOr (s.default?.getD .vUndefined) (.vStr ""))))]
    else if typeHead s.type? = some "number" then numericControlsOf "number" s value path
    else if typeHead s.type? = some "integer" then numericControlsOf "integer" s value path
    else if typeHead s.type? = some "boolean" then
      [.checkbox path
        (JValue.truthy (nullishOr value (nullishOr (s.default?.getD .vUndefined) (.vBool false))))]
    else if typeHead s.type? = some "object" then
      match s.properties? with
      | some ps =>
        ps.flatMap fun kv =>
          controlsGo fuel kv.2 (objGet (jsOr value (.vObj [])) kv.1) (childPath path kv.1)
      | none => []  -- diagnostic placeholder, no controls
    else if typeHead s.type? = some "array" then
      match jsOr value (.vArr []) with
      | .vArr xs =>
        (xs.mapIdx fun i x =>
          match s.items? with
          | some is =>
            match getUnionVariants is with
            | some ivs =>
              match ivs[detectVariant x ivs]? with
              | some iv => controlsGo fuel iv x (itemPath path i)
              | none => []
            | none => controlsGo fuel is x (itemPath path i)
          | none =>
            -- `schema.items || {type:'string'}`: the fallback item schema
            -- is the concrete string schema; its rendering is inlined
            [.field (itemPath path i) (some "string")
              (JValue.jsToStr (nullishOr x (.vStr "")))]).flatten
      | _ => []  -- a truthy non-array value would throw in forEach; unreachable
    else
      -- unknown type: fallback text input (no data-type)
      [.field path none
        (JValue.jsToStr (nullishOr value (nullishOr (s.default?.getD .vUndefined) (.vStr ""))))]

/-- The bound controls of one rendered field. -/
def controlsOf (s : Schema) (value : JValue) (path : String) : List Control :=
  controlsGo (schemaDepth s) s value path

/-- The const branch of `renderField` in full: a hidden input fixed to
`String(const)` carrying `name`, `data-path`, a typed `data-type` and
`data-const`, plus the visible read-only indicator span showing the same
literal.  (Hidden inputs take no user input, so no edit handler exists for
them.) -/
structure ConstRender where
  inputType : String
  name : String
  value : String
  dataType : String
  dataConst : Bool
  indicatorText : String
  deriving Repr, DecidableEq

/-- The const branch of `renderField`. -/
def renderConstField (c : JValue) (path : String) : ConstRender :=
  { inputType := "hidden"
    name := path
    value := JValue.jsToStr c
    dataType := constTypeName c
    dataConst := true
    indicatorText := JValue.jsToStr c }

/-- A const is primitive when it is a string, boolean, or finite number. -/
def primitiveConst : JValue → Bool
  | .vStr _ => true
  | .vBool _ => true
  | .vNum _ => true
  | _ => false

theorem printDec_ne_empty (d : Dec) : printDec d ≠ "" := by
  rw [printDec]
  intro h
  have hd : decChars d = [] := congrArg String.data h
  rw [decChars] at hd
  by_cases hm : d.m < 0
  · rw [if_pos hm] at hd; simp at hd
  · rw [if_neg hm] at hd
    exact decCharsNat_ne_nil _ _ hd

/-- Coercion recovery for primitive consts: collecting the hidden const
control yields exactly the constant (`Number(String(n)) = n` for finite
numbers; `'true'`/`'false'` comparison for booleans; raw string otherwise). -/
theorem coerce_const_primitive {c : JValue} (hc : primitiveConst c = true) (k : String) :
    coerceControl (.field k (some (constTypeName c)) (JValue.jsToStr c)) = c := by
  cases c with
  | vStr s => rfl
  | vBool b => cases b <;> rfl
  | vNum d =>
    rw [constTypeName]
    by_cases hi : d.isInt = true
    · rw [if_pos hi, coerceControl, if_pos (Or.inr rfl),
        show JValue.jsToStr (.vNum d) = printDec d from rfl,
        if_neg (printDec_ne_empty d), jsNumberOf, parseDec_printDec]
    · rw [if_neg hi, coerceControl, if_pos (Or.inl rfl),
        show JValue.jsToStr (.vNum d) = printDec d from rfl,
        if_neg (printDec_ne_empty d), jsNumberOf, parseDec_printDec]
  | vNull => simp [primitiveConst] at hc
  | vUndefined => simp [primitiveConst] at hc
  | vNaN => simp [primitiveConst] at hc
  | vArr xs => simp [primitiveConst] at hc
  | vObj fs => simp [primitiveConst] at hc

/-- C5 (amended to primitive consts): a const schema node outside the
all-const-union case renders a hidden input fixed to `String(const)` plus a
visible read-only indicator showing the literal, independently of the bound
value (hidden inputs take no user input, so no interaction affects the
control); for a primitive const (string, boolean, finite number) the
collector recovers exactly the constant, which therefore appears in the
collected data unconditionally. -/
theorem c5_const_rendering :
    (∀ c path, renderConstField c path =
      ⟨"hidden", path, JValue.jsToStr c, constTypeName c, true, JValue.jsToStr c⟩) ∧
    (∀ c value path fuel,
      controlsGo (fuel + 1) (sConst c) value path =
        [.field path (some (constTypeName c)) (JValue.jsToStr c)]) ∧
    (∀ c, primitiveConst c = true →
      ∀ path, coerceControl (.field path (some (constTypeName c)) (JValue.jsToStr c)) = c) ∧
    (∀ c k, primitiveConst c = true → parseParts k = [k] →
      collectFormData [.field k (some (constTypeName c)) (JValue.jsToStr c)] =
        some (.vObj [(k, c)])) := by
  refine ⟨fun c path => rfl, fun c value path fuel => rfl,
    fun c hc path => coerce_const_primitive hc path, ?_⟩
  intro c k hc hk
  have hkne : k ≠ "" := by
    intro hke
    rw [hke] at hk
    simp [parseParts, splitDots, replaceBrackets, rbGo] at hk
  rw [collectFormData, List.foldlM_cons]
  have hpath : (Control.field k (some (constTypeName c)) (JValue.jsToStr c)).path = k := rfl
  rw [hpath, if_neg hkne, setValueByPath, hk, coerce_const_primitive hc, writeParts]
  rfl

/-- Witness for C5 at the concrete const `"usd"` under key `"currency"`. -/
theorem c5_const_rendering_witness :
    collectFormData [.field "currency" (some "string") "usd"] =
      some (.vObj [("currency", .vStr "usd")]) :=
  c5_const_rendering.2.2.2 (.vStr "usd") "currency" (by decide) (by decide)

/-- C5 counterexample: for the non-primitive literal `const: null` the
renderer emits a hidden input with `data-type "object"` whose collected
value is the STRING `"null"`, not the constant `null` — the constant does
not appear in the collected data. -/
theorem c5_null_const_collects_string :
    controlsOf (sConst .vNull) .vUndefined "k" =
      [.field "k" (some "object") "null"] ∧
    collectFormData [.field "k" (some "object") "null"] =
      some (.vObj [("k", .vStr "null")]) ∧
    ¬ DeepEq (.vObj [("k", .vStr "null")]) (.vObj [("k", .vNull)]) := by
  refine ⟨by decide, by decide, by decide⟩

/-! ### Claim C6: add-item guard at maxItems, append + reindex below it -/

/-- `renderArrayItem` projected to its bound elements: the item renders
`renderField` content at `path`, whose inputs carry matching `data-path`
and `name` attributes, inside a `.schema-array-item` wrapper with
`data-index = index`. -/
def renderArrayItemModel (itemSchema : Schema) (value : JValue) (path : String)
    (index : Nat) : ArrayItem :=
  ⟨index, (controlsOf itemSchema value path).map fun c => ⟨c.path, some c.path⟩⟩

/-- The add button's `onClick` from `renderArrayField` in `src/blueprint.ts`
(`itemSchema` is `schema.items || {type:'string'}`, or the selected variant
in the union branch — both branches are otherwise identical): if
`schema.maxItems !== undefined && currentCount >= schema.maxItems` return
without touching the DOM; otherwise append
`renderArrayItem(itemSchema, getDefaultValue(itemSchema),
path + "[" + currentCount + "]", currentCount)`, reindex, and dispatch a
`schema-change` event.  Returns the resulting item list and whether the
event was dispatched. -/
def addItemClick (maxItemsOpt : Option Nat) (itemSchema : Schema) (arrPath : String)
    (items : List ArrayItem) : List ArrayItem × Bool :=
  let currentCount := items.length
  if (match maxItemsOpt with
      | some m => decide (m ≤ currentCount)
      | none => false) then
    (items, false)
  else
    (reindexArrayItems (items ++
      [renderArrayItemModel itemSchema (getDefaultValue itemSchema)
        (itemPath arrPath currentCount) currentCount]), true)

/-- Re-indexing preserves the number of items. -/
theorem reindexArrayItems_length (xs : List ArrayItem) :
    (reindexArrayItems xs).length = xs.length := by
  simp [reindexArrayItems]

/-- C6: with a declared `maxItems`, clicking add at (or above) the limit
leaves the items unchanged and dispatches no `schema-change` event; below
the limit it appends the item schema's default rendered at the next
contiguous index `items.length`, re-indexes, dispatches the event, and the
count grows by exactly one.  Concretely: on a `maxItems: 2` string array
with one item, the first click appends `list[1]` and fires, the second
click is a no-op. -/
theorem c6_add_item_max_items :
    (∀ (m : Nat) (itemSchema : Schema) (arrPath : String) (items : List ArrayItem),
      m ≤ items.length →
      addItemClick (some m) itemSchema arrPath items = (items, false)) ∧
    (∀ (m : Nat) (itemSchema : Schema) (arrPath : String) (items : List ArrayItem),
      items.length < m →
      addItemClick (some m) itemSchema arrPath items =
        (reindexArrayItems (items ++
          [renderArrayItemModel itemSchema (getDefaultValue itemSchema)
            (itemPath arrPath items.length) items.length]), true) ∧
      (addItemClick (some m) itemSchema arrPath items).1.length = items.length + 1) ∧
    (addItemClick (some 2) (sType "string") "list" [⟨0, [⟨"list[0]", some "list[0]"⟩]⟩] =
      ([⟨0, [⟨"list[0]", some "list[0]"⟩]⟩, ⟨1, [⟨"list[1]", some "list[1]"⟩]⟩], true) ∧
     addItemClick (some 2) (sType "string") "list"
        [⟨0, [⟨"list[0]", some "list[0]"⟩]⟩, ⟨1, [⟨"list[1]", some "list[1]"⟩]⟩] =
      ([⟨0, [⟨"list[0]", some "list[0]"⟩]⟩, ⟨1, [⟨"list[1]", some "list[1]"⟩]⟩], false)) := by
  refine ⟨?_, ?_, by decide, by decide⟩
  · intro m itemSchema arrPath items h
    simp [addItemClick, h]
  · intro m itemSchema arrPath items h
    have hne : ¬ m ≤ items.length := Nat.not_le.2 h
    constructor
    · simp [addItemClick, hne]
    · simp [addItemClick, hne, reindexArrayItems_length]

/-- Witness for C6 at a concrete at-max click (`maxItems = 1`, one item). -/
theorem c6_add_item_max_items_witness :
    addItemClick (some 1) (sType "string") "xs" [⟨0, [⟨"xs[0]", some "xs[0]"⟩]⟩] =
      ([⟨0, [⟨"xs[0]", some "xs[0]"⟩]⟩], false) :=
  c6_add_item_max_items.1 1 (sType "string") "xs"
    [⟨0, [⟨"xs[0]", some "xs[0]"⟩]⟩] (by decide)

/-! ### Claim C1: data → render → collect round trip

The claim fails as stated: for a ROOT schema of primitive type the renderer
binds the single field at path `"data"`, so `getData()` wraps the value in
`{data: ...}` and is not deep-equal to the assigned primitive.  For the
object-rooted union-free class below the round trip holds exactly.  The
amended scope (`goodSchema`, `Conforms`) restricts to: union-free,
const-free, enum-free schemas typed string/number/integer/boolean at leaves
and object/array at nodes; object nodes declare a nonempty list of distinct
"good" keys (nonempty, free of `.`/`[`/`]`, not all digits); array nodes
declare an item schema; conforming data populates every declared property
in declaration order and has nonempty arrays. -/

/-- A property key the renderer's path grammar treats atomically: nonempty,
free of the path metacharacters `.`/`[`/`]`, and not all digits (an
all-digit key would make `setValueByPath` create an array level). -/
def goodKey (k : String) : Bool :=
  !k.data.isEmpty &&
  k.data.all (fun c => !(c = '.' || c = '[' || c = ']')) &&
  !isNumericSeg k

/-- Pairwise-distinct strings. -/
def distinctKeys : List String → Bool
  | [] => true
  | k :: rest => !rest.contains k && distinctKeys rest

mutual

/-- The schema class of the amended C1: union-free, const-free, enum-free;
leaves typed string/number/integer/boolean, numeric leaves declaring both
bounds whenever they request `format: "range"` (a bare range slider would
clamp into the browser-default 0..100); object nodes with a nonempty list
of distinctly and well named properties; array nodes with an item
schema. -/
def goodSchema : Schema → Bool
  | .mk t props items _ enm cst ao oo mn mx _ _ _ _ _ _ _ _ fm =>
    ao.isNone && oo.isNone && cst.isNone && enm.isNone &&
    (if typeHead t = some "string" ∨ typeHead t = some "boolean" then true
     else if typeHead t = some "number" ∨ typeHead t = some "integer" then
       !(fm == some "range") || (mn.isSome && mx.isSome)
     else if typeHead t = some "object" then
       (match props with
        | some ps => !ps.isEmpty && distinctKeys (ps.map Prod.fst) && goodProps ps
        | none => false)
     else if typeHead t = some "array" then
       (match items with
        | some is => goodSchema is
        | none => false)
     else false)
  termination_by structural x => x

def goodProps : List (String × Schema) → Bool
  | [] => true
  | (k, sub) :: rest => goodKey k && goodSchema sub && goodProps rest
  termination_by structural x => x

end

mutual

/-- Data conforming to a schema of the amended C1 class, populating every
declared property in declaration order, with nonempty arrays; numeric
values satisfy the declared `minimum`/`maximum` bounds. -/
inductive Conforms : Schema → JValue → Prop where
  | str {s : Schema} (t : String) :
      typeHead s.type? = some "string" → Conforms s (.vStr t)
  | num {s : Schema} (d : Dec) :
      typeHead s.type? = some "number" →
      (∀ mn, s.minimum? = some mn → Dec.numLe mn d = true) →
      (∀ mx, s.maximum? = some mx → Dec.numLe d mx = true) →
      Conforms s (.vNum d)
  | int {s : Schema} (d : Dec) :
      typeHead s.type? = some "integer" →
      (∀ mn, s.minimum? = some mn → Dec.numLe mn d = true) →
      (∀ mx, s.maximum? = some mx → Dec.numLe d mx = true) →
      Conforms s (.vNum d)
  | bool {s : Schema} (b : Bool) :
      typeHead s.type? = some "boolean" → Conforms s (.vBool b)
  | obj {s : Schema} {ps : List (String × Schema)} {fs : List (String × JValue)} :
      typeHead s.type? = some "object" → s.properties? = some ps →
      ConformsFields ps fs → Conforms s (.vObj fs)
  | arr {s is : Schema} {xs : List JValue} :
      typeHead s.type? = some "array" → s.items? = some is → xs ≠ [] →
      (∀ x ∈ xs, Conforms is x) → Conforms s (.vArr xs)

/-- Field lists populating a property list in declaration order. -/
inductive ConformsFields :
    List (String × Schema) → List (String × JValue) → Prop where
  | nil : ConformsFields [] []
  | cons {k : String} {sub : Schema} {v : JValue}
      {ps : List (String × Schema)} {fs : List (String × JValue)} :
      Conforms sub v → ConformsFields ps fs →
      ConformsFields ((k, sub) :: ps) ((k, v) :: fs)

end

theorem goodProps_mem {ps : List (String × Schema)} {k : String} {sub : Schema}
    (h : goodProps ps = true) (hm : (k, sub) ∈ ps) :
    goodKey k = true ∧ goodSchema sub = true := by
  induction ps with
  | nil => cases hm
  | cons p rest ih =>
    obtain ⟨k0, sub0⟩ := p
    simp only [goodProps, Bool.and_eq_true] at h
    rcases List.mem_cons.mp hm with heq | h2
    · obtain ⟨rfl, rfl⟩ := Prod.mk.injEq .. ▸ And.intro (congrArg Prod.fst heq) (congrArg Prod.snd heq)
      exact ⟨h.1.1, h.1.2⟩
    · exact ih h.2 h2

theorem coerce_string_field (p t : String) :
    coerceControl (.field p (some "string") t) = .vStr t := rfl

theorem coerce_checkbox (p : String) (b : Bool) :
    coerceControl (.checkbox p b) = .vBool b := rfl

end SchemaForm
